import Mathlib

/-!
Verification of the arbitrage opportunity-detection and execution-orchestration
engine of the OmniDeFi Nexus repository.

The repository contains two variants of the `ArbitrageService` class:
the main one in `server/services/arbitrage.ts` (namespace `Main` below) and the
Track1 one in `Track1_Arbitrage/server/services/arbitrage.ts` (namespace
`Track1` below).  Both are embedded shallowly:

* JavaScript numbers are modelled by `JsNum`, a rational number extended with
  the IEEE special values `Infinity`, `-Infinity` and `NaN`, because the
  detector's profit-percentage computation divides by the buy price without a
  zero guard and the resulting special values flow through comparisons.
  Where the source guarantees finite operands, plain `ℚ` is used.
* The persistence collaborator (`MemStorage` in `server/storage.ts`) is an
  insertion-ordered list of opportunities with an incrementing id counter,
  exactly as the source's `Map` plus `currentId` implement it.
* Exchange adapters are external collaborators; a trade execution is modelled
  by a caller-supplied function `trade : exchange → asset → amount → side →
  TradeResult`, and the embeddings additionally record the list of adapter
  invocations they make so that theorems can speak about which legs were
  executed and with which amounts.
* Wall-clock data (`Date` fields, `Date.now()` route ids, `Math.random()`
  draws) is either omitted or supplied as an explicit parameter; no claim
  below depends on it.
-/

/-- Model of a JavaScript number: a finite rational or one of the IEEE special
values.  Finite arithmetic is exact rational arithmetic (the claims under
study never hinge on rounding), special values follow IEEE-754 / ECMA-262. -/
inductive JsNum where
  | num (q : ℚ)
  | inf
  | negInf
  | nan
deriving DecidableEq, Repr

namespace JsNum

/-- JavaScript addition restricted to the modelled values. -/
def add : JsNum → JsNum → JsNum
  | nan, _ => nan
  | _, nan => nan
  | num a, num b => num (a + b)
  | num _, inf => inf
  | num _, negInf => negInf
  | inf, num _ => inf
  | inf, inf => inf
  | inf, negInf => nan
  | negInf, num _ => negInf
  | negInf, inf => nan
  | negInf, negInf => negInf

/-- JavaScript subtraction. -/
def sub : JsNum → JsNum → JsNum
  | nan, _ => nan
  | _, nan => nan
  | num a, num b => num (a - b)
  | num _, inf => negInf
  | num _, negInf => inf
  | inf, num _ => inf
  | inf, inf => nan
  | inf, negInf => inf
  | negInf, num _ => negInf
  | negInf, inf => negInf
  | negInf, negInf => nan

/-- JavaScript multiplication. -/
def mul : JsNum → JsNum → JsNum
  | nan, _ => nan
  | _, nan => nan
  | num a, num b => num (a * b)
  | num a, inf => if a > 0 then inf else if a < 0 then negInf else nan
  | num a, negInf => if a > 0 then negInf else if a < 0 then inf else nan
  | inf, num b => if b > 0 then inf else if b < 0 then negInf else nan
  | inf, inf => inf
  | inf, negInf => negInf
  | negInf, num b => if b > 0 then negInf else if b < 0 then inf else nan
  | negInf, inf => negInf
  | negInf, negInf => inf

/-- JavaScript division (signed zero is not distinguished; the sources never
produce a negative zero on the paths under study). -/
def div : JsNum → JsNum → JsNum
  | nan, _ => nan
  | _, nan => nan
  | num a, num b =>
      if b = 0 then (if a > 0 then inf else if a < 0 then negInf else nan)
      else num (a / b)
  | num _, inf => num 0
  | num _, negInf => num 0
  | inf, num b => if b < 0 then negInf else inf
  | inf, inf => nan
  | inf, negInf => nan
  | negInf, num b => if b < 0 then inf else negInf
  | negInf, inf => nan
  | negInf, negInf => nan

/-- JavaScript `>=` (false whenever `NaN` is involved). -/
def jge : JsNum → JsNum → Bool
  | nan, _ => false
  | _, nan => false
  | num a, num b => decide (b ≤ a)
  | num _, inf => false
  | num _, negInf => true
  | inf, _ => true
  | negInf, negInf => true
  | negInf, _ => false

/-- JavaScript `>` (false whenever `NaN` is involved). -/
def jgt : JsNum → JsNum → Bool
  | nan, _ => false
  | _, nan => false
  | num a, num b => decide (b < a)
  | num _, inf => false
  | num _, negInf => true
  | inf, inf => false
  | inf, _ => true
  | negInf, _ => false

/-- JavaScript `<` (false whenever `NaN` is involved). -/
def jlt (a b : JsNum) : Bool := jgt b a

/-- JavaScript `Math.abs`. -/
def jabs : JsNum → JsNum
  | nan => nan
  | inf => inf
  | negInf => inf
  | num a => num |a|

/-- JavaScript `Math.min` (propagates `NaN`). -/
def jmin : JsNum → JsNum → JsNum
  | nan, _ => nan
  | _, nan => nan
  | num a, num b => num (min a b)
  | num a, inf => num a
  | num _, negInf => negInf
  | inf, b => b
  | negInf, _ => negInf

/-- JavaScript `Math.max` (propagates `NaN`). -/
def jmax : JsNum → JsNum → JsNum
  | nan, _ => nan
  | _, nan => nan
  | num a, num b => num (max a b)
  | num _, inf => inf
  | num a, negInf => num a
  | inf, _ => inf
  | negInf, b => b

end JsNum

/-- `(amount / buyPrice) * 100` as JavaScript computes it: the profit-percentage
pattern shared by both detector variants.  A zero denominator with a positive
numerator yields `Infinity` (multiplying by 100 preserves the special value). -/
def jsPct (amount buyPrice : ℚ) : JsNum :=
  (JsNum.div (JsNum.num amount) (JsNum.num buyPrice)).mul (JsNum.num 100)

/-- Venue kind of an exchange (`type ExchangeType = 'DEX' | 'CEX'`). -/
inductive ExchangeType where
  | DEX
  | CEX
deriving DecidableEq, Repr

/-- Trade side (`'buy' | 'sell'`). -/
inductive Side where
  | buy
  | sell
deriving DecidableEq, Repr

/-- One `(exchange, type, price)` tuple assembled by the detectors from the
price cache for a single asset. -/
structure PriceEntry where
  exchange : String
  etype : ExchangeType
  price : ℚ
deriving DecidableEq, Repr

/-- One step of an `ArbitrageRoute` (TypeScript interface `ArbitrageRoute.steps`;
the wall-clock fields are omitted). -/
structure RouteStep where
  exchange : String
  etype : ExchangeType
  action : Side
  expectedPrice : ℚ
  amount : ℚ
  estimatedFee : ℚ
deriving DecidableEq, Repr

/-- An in-memory arbitrage route (TypeScript interface `ArbitrageRoute`; the
random `id` string and the estimated execution time are omitted, the profit
percentage is a JavaScript number because it results from a division). -/
structure Route where
  asset : String
  steps : List RouteStep
  estimatedProfitAmount : ℚ
  estimatedProfitPercentage : JsNum
  riskScore : JsNum
  confidence : JsNum
deriving DecidableEq, Repr

/-- Result of one adapter trade execution (TypeScript interface `TradeResult`;
timestamp omitted). -/
structure TradeResult where
  success : Bool
  txId : String
  asset : String
  amount : ℚ
  price : ℚ
  fee : ℚ
  error : Option String
deriving DecidableEq, Repr

/-- One recorded step of an `ExecutionSummary`. -/
structure SummaryStep where
  exchange : String
  action : Side
  expectedPrice : ℚ
  actualPrice : ℚ
  amount : ℚ
  fee : ℚ
  success : Bool
  txId : Option String
  error : Option String
deriving DecidableEq, Repr

/-- An execution summary (TypeScript interface `ExecutionSummary`; start/end
timestamps are omitted and the measured duration is an explicit parameter of
the execution embeddings). -/
structure ExecutionSummary where
  routeId : String
  success : Bool
  asset : String
  steps : List SummaryStep
  expectedProfit : ℚ
  actualProfit : ℚ
  profitDifference : ℚ
  gasCost : ℚ
  netProfit : ℚ
  executionTimeMs : ℚ
deriving DecidableEq, Repr

/-- A persisted arbitrage opportunity (shared-schema `ArbitrageOpportunity` as
stored by `MemStorage`; timestamps omitted, the Track1-only patch fields are
optional). -/
structure StoredOpp where
  id : ℕ
  asset : String
  buyExchange : String
  sellExchange : String
  buyPrice : ℚ
  sellPrice : ℚ
  profitPercentage : JsNum
  profitAmount : ℚ
  isActive : Bool
  actualProfit : Option JsNum
  actualProfitPercentage : Option JsNum
deriving DecidableEq, Repr

/-- Insert form of an opportunity (`InsertArbitrageOpportunity`): everything
but the id. -/
structure OppData where
  asset : String
  buyExchange : String
  sellExchange : String
  buyPrice : ℚ
  sellPrice : ℚ
  profitPercentage : JsNum
  profitAmount : ℚ
  isActive : Bool
deriving DecidableEq, Repr

/-- The persistence collaborator `MemStorage`: a `Map` of opportunities in
insertion order together with the `currentId` counter. -/
structure Store where
  currentId : ℕ
  opps : List StoredOpp
deriving DecidableEq, Repr

namespace Store

/-- `MemStorage.getArbitrageOpportunity`. -/
def getArbitrageOpportunity (st : Store) (id : ℕ) : Option StoredOpp :=
  st.opps.find? (fun o => o.id = id)

/-- The stored record `{ ...opportunity, id }` built by
`createArbitrageOpportunity`. -/
def mkStoredOpp (id : ℕ) (d : OppData) : StoredOpp :=
  { id := id,
    asset := d.asset,
    buyExchange := d.buyExchange,
    sellExchange := d.sellExchange,
    buyPrice := d.buyPrice,
    sellPrice := d.sellPrice,
    profitPercentage := d.profitPercentage,
    profitAmount := d.profitAmount,
    isActive := d.isActive,
    actualProfit := none,
    actualProfitPercentage := none }

/-- `MemStorage.createArbitrageOpportunity`: assign the next id, insert. -/
def createArbitrageOpportunity (st : Store) (d : OppData) : Store :=
  { currentId := st.currentId + 1,
    opps := st.opps ++ [mkStoredOpp st.currentId d] }

/-- `MemStorage.updateArbitrageOpportunity`: merge a patch into the entry with
the given id (a no-op when the id is absent), keyed exactly as the source's
`Map.set`. -/
def updateArbitrageOpportunity (st : Store) (id : ℕ) (patch : StoredOpp → StoredOpp) :
    Store :=
  { st with opps := st.opps.map (fun o => if o.id = id then patch o else o) }

end Store

/-- Identity and venue kind of a monitored exchange (the adapter closures
attached to it are modelled as the external `trade` function below). -/
structure ExchangeInfo where
  name : String
  etype : ExchangeType
deriving DecidableEq, Repr

/-- The price cache `Map<string, Map<string, number>>`: exchange name to
(asset name to price), as association lists. -/
abbrev PriceCache := List (String × List (String × ℚ))

/-- One adapter invocation `exchange.executeTrade(asset, amount, side)`,
recorded by the execution embeddings so that theorems can talk about which
legs were executed and for which amounts. -/
structure TradeCall where
  exchange : String
  asset : String
  amount : ℚ
  side : Side
deriving DecidableEq, Repr

/-- The typed failures `executeTrade` surfaces (the sources throw `Error`s
with distinguishing messages; each constructor corresponds to one `throw`
site). -/
inductive ExecError where
  | throttled
  | notFound (id : ℕ)
  | stale
  | priceUnavailable
  | noLongerProfitable (pct : ℚ)
  | exchangeNotFound (name : String)
  | legFailed (exchange : String) (msg : Option String)
deriving DecidableEq, Repr

/-- Whether a JavaScript sort comparator result counts as "do not swap"
(non-positive; ECMA-262 treats a `NaN` comparator result as `+0`). -/
def sortKeyNonpos : JsNum → Bool
  | .num q => decide (q ≤ 0)
  | .negInf => true
  | .inf => false
  | .nan => true

/-- `Math.round` (round half away from zero is JavaScript's behaviour only for
half-integers; the sources only round averages where the claims need the empty
case, for which this floor-based model agrees). -/
def jsRound (q : ℚ) : ℤ := ⌊q + 1 / 2⌋

/-- Accumulate `m[asset] = (m[asset] || 0) + p` on a record modelled as an
insertion-ordered association list. -/
def addProfit (m : List (String × ℚ)) (asset : String) (p : ℚ) :
    List (String × ℚ) :=
  if m.any (fun kv => kv.1 = asset) then
    m.map (fun kv => if kv.1 = asset then (kv.1, kv.2 + p) else kv)
  else m ++ [(asset, p)]

namespace Main

/-- Per-leg fee rate by venue kind (0.3% for DEX, 0.1% for CEX). -/
def feeRate : ExchangeType → ℚ
  | .DEX => 0.003
  | .CEX => 0.001

/-- The `exchangeRisk` adjustment table of `calculateRiskScore`
(`exchangeRisk[name] || 0`). -/
def exchangeRisk (name : String) : ℚ :=
  if name = "Uniswap" then -5
  else if name = "SushiSwap" then 0
  else if name = "Curve" then -3
  else if name = "PancakeSwap" then 0
  else if name = "Jupiter" then 3
  else if name = "OKX" then -8
  else if name = "Binance" then -10
  else if name = "Coinbase" then -7
  else if name = "Kraken" then -5
  else 0

/-- `ArbitrageService.calculateRiskScore` of the main variant: baseline 50,
profit-band penalties, +5 per DEX leg, per-exchange adjustments, clamped to
[0, 100].  All additions are finite; only the profit-percentage comparisons
involve the JavaScript number. -/
def calculateRiskScore (buyOption sellOption : PriceEntry)
    (profitPercentage : JsNum) : ℚ :=
  let risk : ℚ := 50
  let risk := if profitPercentage.jgt (.num 5) then risk + 20
    else if profitPercentage.jgt (.num 2) then risk + 10
    else if profitPercentage.jgt (.num 1) then risk + 5
    else risk
  let risk := if buyOption.etype = .DEX then risk + 5 else risk
  let risk := if sellOption.etype = .DEX then risk + 5 else risk
  let risk := risk + exchangeRisk buyOption.exchange + exchangeRisk sellOption.exchange
  max 0 (min 100 risk)

/-- `ArbitrageService.calculateConfidence` of the main variant: baseline 0.7,
profit-band penalties, +0.1 per CEX leg, clamped to [0, 1]. -/
def calculateConfidence (buyOption sellOption : PriceEntry)
    (profitPercentage : JsNum) : ℚ :=
  let c : ℚ := 0.7
  let c := if profitPercentage.jgt (.num 5) then c - 0.3
    else if profitPercentage.jgt (.num 3) then c - 0.15
    else if profitPercentage.jlt (.num 0.5) then c - 0.1
    else c
  let c := if buyOption.etype = .CEX then c + 0.1 else c
  let c := if sellOption.etype = .CEX then c + 0.1 else c
  max 0 (min 1 c)

/-- The in-tick deduplication test of `detectArbitrageOpportunities`:
`r.asset === route.asset && r.steps[0].exchange === route.steps[0].exchange &&
r.steps[1].exchange === route.steps[1].exchange`. -/
def sameRoutePair (r route : Route) : Bool :=
  r.asset == route.asset &&
  (r.steps.get? 0).map RouteStep.exchange == (route.steps.get? 0).map RouteStep.exchange &&
  (r.steps.get? 1).map RouteStep.exchange == (route.steps.get? 1).map RouteStep.exchange

/-- Body of the inner buy/sell pair loop of `detectArbitrageOpportunities`:
skip same-exchange pairs, compute fees and the net profit percentage, keep the
pair only when the JavaScript comparison `netProfitPercentage >=
minProfitThreshold` holds, and deduplicate against the accumulated routes. -/
def considerPair (minProfitThreshold : ℚ) (asset : String) (routes : List Route)
    (buyOption sellOption : PriceEntry) : List Route :=
  if buyOption.exchange = sellOption.exchange then routes else
  let buyPrice := buyOption.price
  let sellPrice := sellOption.price
  let profitAmount := sellPrice - buyPrice
  let buyFee := feeRate buyOption.etype
  let sellFee := feeRate sellOption.etype
  let totalFees := buyPrice * buyFee + sellPrice * sellFee
  let netProfitAmount := profitAmount - totalFees
  let netProfitPercentage := jsPct netProfitAmount buyPrice
  if netProfitPercentage.jge (.num minProfitThreshold) then
    let route : Route :=
      { asset := asset,
        steps := [⟨buyOption.exchange, buyOption.etype, .buy, buyPrice, 1, buyPrice * buyFee⟩,
                  ⟨sellOption.exchange, sellOption.etype, .sell, sellPrice, 1, sellPrice * sellFee⟩],
        estimatedProfitAmount := netProfitAmount,
        estimatedProfitPercentage := netProfitPercentage,
        riskScore := .num (calculateRiskScore buyOption sellOption netProfitPercentage),
        confidence := .num (calculateConfidence buyOption sellOption netProfitPercentage) }
    if routes.any (fun r => sameRoutePair r route) then routes
    else routes ++ [route]
  else routes

/-- Per-asset body of `detectArbitrageOpportunities`: sort the cached entries
by price (ascending for buying, descending for selling), consider the first
`Math.min(3, length)` options on each side in loop order. -/
def detectAsset (minProfitThreshold : ℚ) (asset : String)
    (assetPrices : List PriceEntry) (routes : List Route) : List Route :=
  let buyOptions :=
    (assetPrices.insertionSort (fun a b => a.price ≤ b.price)).take 3
  let sellOptions :=
    (assetPrices.insertionSort (fun a b => b.price ≤ a.price)).take 3
  buyOptions.foldl
    (fun rs b => sellOptions.foldl (fun rs' s => considerPair minProfitThreshold asset rs' b s) rs)
    routes

/-- Assemble the `(exchange, type, price)` tuples cached for one asset,
in exchange registration order. -/
def assetPricesFor (exchanges : List ExchangeInfo) (cache : PriceCache)
    (asset : String) : List PriceEntry :=
  exchanges.filterMap (fun e =>
    match (cache.lookup e.name).bind (fun m => m.lookup asset) with
    | some p => some ⟨e.name, e.etype, p⟩
    | none => none)

/-- `ArbitrageService.detectArbitrageOpportunities` of the main variant:
drop retained routes below threshold, scan every asset, then sort by profit
percentage descending (comparator `b.pct - a.pct`).  The trailing
`syncRoutesToStorage` call is modelled separately below. -/
def detectArbitrageOpportunities (minProfitThreshold : ℚ) (assets : List String)
    (exchanges : List ExchangeInfo) (cache : PriceCache)
    (oldRoutes : List Route) : List Route :=
  let cleaned := oldRoutes.filter
    (fun r => r.estimatedProfitPercentage.jge (.num minProfitThreshold))
  let withNew := assets.foldl
    (fun rs asset => detectAsset minProfitThreshold asset (assetPricesFor exchanges cache asset) rs)
    cleaned
  withNew.insertionSort
    (fun a b => sortKeyNonpos (JsNum.sub b.estimatedProfitPercentage a.estimatedProfitPercentage) = true)

end Main

namespace Main

/-- The projection of a route to the storage schema used by
`syncRoutesToStorage` (`buyStep`/`sellStep` looked up by action; routes
without both legs are dropped by the `filter(Boolean)`). -/
def routeToStorageOpp (route : Route) : Option OppData :=
  match route.steps.find? (fun s => s.action = .buy),
        route.steps.find? (fun s => s.action = .sell) with
  | some buyStep, some sellStep =>
      some { asset := route.asset,
             buyExchange := buyStep.exchange,
             sellExchange := sellStep.exchange,
             buyPrice := buyStep.expectedPrice,
             sellPrice := sellStep.expectedPrice,
             profitPercentage := route.estimatedProfitPercentage,
             profitAmount := route.estimatedProfitAmount,
             isActive := true }
  | _, _ => none

/-- `(asset, buyExchange, sellExchange)` triple equality between a persisted
opportunity and a detector projection. -/
def tripleMatches (e : StoredOpp) (o : OppData) : Bool :=
  e.asset == o.asset && e.buyExchange == o.buyExchange && e.sellExchange == o.sellExchange

/-- Result of one `syncRoutesToStorage` pass: the new store plus how many
`createArbitrageOpportunity` and `updateArbitrageOpportunity` calls were
issued. -/
structure SyncResult where
  store : Store
  creates : ℕ
  updates : ℕ
deriving Repr

/-- The create-loop guard of `syncRoutesToStorage`: skip a projection when an
opportunity with the same triple and a profit percentage within 0.1 (a
JavaScript `Math.abs` comparison) already existed in the snapshot. -/
def syncCreateMatch (existingOpps : List StoredOpp) (opp : OppData) : Bool :=
  existingOpps.any (fun e => tripleMatches e opp &&
    ((e.profitPercentage.sub opp.profitPercentage).jabs).jlt (.num 0.1))

/-- The create loop of `syncRoutesToStorage` (returns the store and the number
of `createArbitrageOpportunity` calls issued). -/
def syncCreateLoop (existingOpps : List StoredOpp) (storageOpps : List OppData)
    (acc : Store × ℕ) : Store × ℕ :=
  storageOpps.foldl
    (fun acc opp =>
      if syncCreateMatch existingOpps opp then acc
      else (acc.1.createArbitrageOpportunity opp, acc.2 + 1))
    acc

/-- The refresh patch of the update loop (new prices, profit fields, and
`isActive: true`). -/
def syncUpdatePatch (m : OppData) (o : StoredOpp) : StoredOpp :=
  { o with buyPrice := m.buyPrice, sellPrice := m.sellPrice,
           profitPercentage := m.profitPercentage,
           profitAmount := m.profitAmount, isActive := true }

/-- The deactivation patch of the update loop. -/
def syncDeactivate (o : StoredOpp) : StoredOpp := { o with isActive := false }

/-- The store action for one snapshot entry in the update loop: refresh it
from the first projection with its triple when one exists, deactivate it
otherwise (either way one `updateArbitrageOpportunity` call). -/
def syncUpdateApply (storageOpps : List OppData) (e : StoredOpp) (st : Store) : Store :=
  match storageOpps.find? (fun o => tripleMatches e o) with
  | some m => st.updateArbitrageOpportunity e.id (syncUpdatePatch m)
  | none => st.updateArbitrageOpportunity e.id syncDeactivate

/-- The update loop of `syncRoutesToStorage`: one update call per snapshot
entry. -/
def syncUpdateLoop (storageOpps : List OppData) (existingOpps : List StoredOpp)
    (acc : Store × ℕ) : Store × ℕ :=
  existingOpps.foldl
    (fun acc e => (syncUpdateApply storageOpps e acc.1, acc.2 + 1))
    acc

/-- `ArbitrageService.syncRoutesToStorage`: project the routes, snapshot the
existing opportunities, create every projection not matched by an existing
opportunity with the same triple and a profit percentage within 0.1, then walk
the snapshot issuing one update per entry — refreshing entries whose triple
still appears among the projections (first match wins) and deactivating the
rest. -/
def syncRoutesToStorage (routes : List Route) (st : Store) : SyncResult :=
  let storageOpps := routes.filterMap routeToStorageOpp
  let existingOpps := st.opps
  let createPass := syncCreateLoop existingOpps storageOpps (st, 0)
  let updatePass := syncUpdateLoop storageOpps existingOpps (createPass.1, 0)
  ⟨updatePass.1, createPass.2, updatePass.2⟩

/-- `ArbitrageService.getExchangeType` of the main variant (defaults to DEX
when the exchange is unknown). -/
def getExchangeType (exchanges : List ExchangeInfo) (name : String) : ExchangeType :=
  match exchanges.find? (fun e => e.name = name) with
  | some e => e.etype
  | none => .DEX

/-- Mutable service state touched by the main variant's `executeTrade`
(`activeExecutions`, `executionHistory`, the storage collaborator, and the
price cache, which this variant's `executeTrade` never reads). -/
structure MainState where
  activeExecutions : ℕ
  executionHistory : List ExecutionSummary
  store : Store
  priceCache : PriceCache
deriving Repr

/-- Outcome of one `executeTrade` call: the settled result or typed error, the
state after the call, and the adapter invocations made. -/
structure ExecOutcome where
  result : Except ExecError ExecutionSummary
  state : MainState
  calls : List TradeCall
deriving Repr

/-- The step-execution loop of the main `executeTrade`: each route step is
executed on its exchange for `step.amount`, its result is appended to the
summary steps, and the first failure (missing exchange or unsuccessful trade)
aborts the loop. -/
def runSteps (trade : String → String → ℚ → Side → TradeResult)
    (exchanges : List ExchangeInfo) (asset : String) :
    List RouteStep → List SummaryStep → List TradeCall →
    List SummaryStep × List TradeCall × Option ExecError
  | [], acc, calls => (acc, calls, none)
  | step :: rest, acc, calls =>
    match exchanges.find? (fun e => e.name = step.exchange) with
    | none => (acc, calls, some (.exchangeNotFound step.exchange))
    | some _ =>
      let tr := trade step.exchange asset step.amount step.action
      let acc' := acc ++ [⟨step.exchange, step.action, step.expectedPrice, tr.price,
                           tr.amount, tr.fee, tr.success, some tr.txId, tr.error⟩]
      let calls' := calls ++ [⟨step.exchange, asset, step.amount, step.action⟩]
      if tr.success then runSteps trade exchanges asset rest acc' calls'
      else (acc', calls', some (.legFailed step.exchange tr.error))

/-- `buyStep.exchange.includes('Uni')`, the gas-limit heuristic. -/
def containsUni (s : String) : Bool := (s.splitOn "Uni").length > 1

/-- `ArbitrageService.executeTrade` of the main variant
(`server/services/arbitrage.ts`).  Control flow mirrors the source: throttle
check before incrementing `activeExecutions`; opportunity lookup (`NotFound`)
and `isActive` check (`Stale`), each decrementing the counter on throw; route
lookup with a manual fallback route built from storage data; the step loop;
on success the profit/gas computation, history append, and the
`isActive: false` storage update; on a step failure the failed-summary append;
the counter decrement of the `finally` block on every path that incremented
it.  The trailing OKX call is an external no-op collaborator. -/
def executeTrade (maxConcurrentExecutions : ℕ) (exchanges : List ExchangeInfo)
    (routes : List Route) (trade : String → String → ℚ → Side → TradeResult)
    (elapsedMs : ℚ) (opportunityId : ℕ) (s : MainState) : ExecOutcome :=
  if maxConcurrentExecutions ≤ s.activeExecutions then
    ⟨.error .throttled, s, []⟩
  else
    let s1 : MainState := { s with activeExecutions := s.activeExecutions + 1 }
    match s1.store.getArbitrageOpportunity opportunityId with
    | none =>
        ⟨.error (.notFound opportunityId),
         { s1 with activeExecutions := s1.activeExecutions - 1 }, []⟩
    | some opportunity =>
      if !opportunity.isActive then
        ⟨.error .stale, { s1 with activeExecutions := s1.activeExecutions - 1 }, []⟩
      else
        let route : Route :=
          match routes.find? (fun r =>
              r.asset == opportunity.asset &&
              r.steps.any (fun st => st.exchange == opportunity.buyExchange && st.action == Side.buy) &&
              r.steps.any (fun st => st.exchange == opportunity.sellExchange && st.action == Side.sell)) with
          | some r => r
          | none =>
            { asset := opportunity.asset,
              steps :=
                [⟨opportunity.buyExchange, getExchangeType exchanges opportunity.buyExchange,
                  .buy, opportunity.buyPrice, 1,
                  if getExchangeType exchanges opportunity.buyExchange = .DEX then 0.003 else 0.001⟩,
                 ⟨opportunity.sellExchange, getExchangeType exchanges opportunity.sellExchange,
                  .sell, opportunity.sellPrice, 1,
                  if getExchangeType exchanges opportunity.sellExchange = .DEX then 0.003 else 0.001⟩],
              estimatedProfitAmount := opportunity.profitAmount,
              estimatedProfitPercentage := opportunity.profitPercentage,
              riskScore := .num 50,
              confidence := .num 0.85 }
        let stepRun := runSteps trade exchanges opportunity.asset route.steps [] []
        let summary0 : ExecutionSummary :=
          { routeId := "", success := false, asset := opportunity.asset,
            steps := stepRun.1, expectedProfit := opportunity.profitAmount,
            actualProfit := 0, profitDifference := 0, gasCost := 0, netProfit := 0,
            executionTimeMs := elapsedMs }
        match stepRun.2.2 with
        | some e =>
            ⟨.error e,
             { s1 with executionHistory := s1.executionHistory ++ [summary0],
                       activeExecutions := s1.activeExecutions - 1 },
             stepRun.2.1⟩
        | none =>
            let summary :=
              match stepRun.1.find? (fun st => st.action = .buy),
                    stepRun.1.find? (fun st => st.action = .sell) with
              | some buyStep, some sellStep =>
                  let buyTotal := buyStep.amount * buyStep.actualPrice + buyStep.fee
                  let sellTotal := sellStep.amount * sellStep.actualPrice - sellStep.fee
                  let actualProfit := sellTotal - buyTotal
                  let gasLimit : ℚ := if containsUni buyStep.exchange then 250000 else 150000
                  let gasCost : ℚ := 50 * gasLimit * (1 / 1000000000) * 3245.89
                  { summary0 with
                      success := true,
                      actualProfit := actualProfit,
                      profitDifference := actualProfit - opportunity.profitAmount,
                      gasCost := gasCost,
                      netProfit := actualProfit - gasCost }
              | _, _ => { summary0 with success := true }
            ⟨.ok summary,
             { activeExecutions := s1.activeExecutions - 1,
               executionHistory := s1.executionHistory ++ [summary],
               store := s1.store.updateArbitrageOpportunity opportunityId
                 (fun o => { o with isActive := false }),
               priceCache := s1.priceCache },
             stepRun.2.1⟩

end Main

/-- Fold of JavaScript addition, for the reduce over percentage differences. -/
def jsSum (l : List JsNum) : JsNum := l.foldl JsNum.add (.num 0)

namespace Main

/-- Return value of the main variant's `getPerformanceMetrics` (formatting
such as `toFixed` and the `%` suffix is dropped; the numeric content is
kept). -/
structure Metrics where
  totalExecutions : ℕ
  successfulExecutions : ℕ
  successRate : ℚ
  totalProfit : ℚ
  averageExecutionTimeMs : ℤ
  profitByAsset : List (String × ℚ)
  profitExpectationAccuracy : JsNum
  recentExecutions : List (String × Bool × ℚ × ℚ)
deriving DecidableEq, Repr

/-- `ArbitrageService.getPerformanceMetrics` of the main variant: counts,
guarded success rate and averages, profit summed over successful executions,
per-asset accumulation over successful executions, expectation accuracy over
the successful executions (a JavaScript number, since it divides by the
expected profit), and the last five executions. -/
def getPerformanceMetrics (history : List ExecutionSummary) : Metrics :=
  let totalExecutions := history.length
  let successfulExecutions := (history.filter (fun e => e.success)).length
  let successRate : ℚ :=
    if 0 < totalExecutions then ((successfulExecutions : ℚ) / totalExecutions) * 100 else 0
  let totalProfit := history.foldl
    (fun sum e => sum + (if e.success then e.netProfit else 0)) 0
  let avgExecutionTime : ℚ :=
    if 0 < history.length then
      (history.foldl (fun sum e => sum + e.executionTimeMs) 0) / history.length
    else 0
  let profitByAsset := history.foldl
    (fun m e => if e.success then addProfit m e.asset e.netProfit else m) []
  let expectedVsActual := (history.filter (fun e => e.success)).map
    (fun e => jsPct e.profitDifference e.expectedProfit)
  let avgProfitExpectationDiff : JsNum :=
    if 0 < expectedVsActual.length then
      (jsSum expectedVsActual).div (.num expectedVsActual.length)
    else .num 0
  { totalExecutions := totalExecutions,
    successfulExecutions := successfulExecutions,
    successRate := successRate,
    totalProfit := totalProfit,
    averageExecutionTimeMs := jsRound avgExecutionTime,
    profitByAsset := profitByAsset,
    profitExpectationAccuracy := (JsNum.num 100).sub avgProfitExpectationDiff.jabs,
    recentExecutions := (history.drop (history.length - 5)).map
      (fun e => (e.asset, e.success, e.netProfit, e.executionTimeMs)) }

end Main

namespace Track1

/-- The `exchangeReliability` table of the Track1 `calculateConfidence`
(`exchangeReliability[name] || 0.8`; every listed value is truthy). -/
def exchangeReliability (name : String) : ℚ :=
  if name = "Binance" then 0.95
  else if name = "Coinbase" then 0.95
  else if name = "Kraken" then 0.93
  else if name = "OKX" then 0.92
  else if name = "Bybit" then 0.90
  else if name = "Huobi" then 0.88
  else if name = "Bitfinex" then 0.87
  else if name = "Kucoin" then 0.86
  else if name = "Uniswap" then 0.85
  else if name = "SushiSwap" then 0.82
  else if name = "Curve" then 0.84
  else if name = "Balancer" then 0.81
  else if name = "PancakeSwap" then 0.83
  else if name = "Trader Joe" then 0.80
  else if name = "Jupiter" then 0.82
  else if name = "Raydium" then 0.80
  else 0.8

/-- `ArbitrageService.calculateRiskScore` of the Track1 variant.  The
profit-margin term mixes the (possibly non-finite) percentage into the
arithmetic, so the whole computation is carried out on JavaScript numbers.
The `assetRiskFactor[buyOption.asset]` lookup always misses — `buyOption` has
no `asset` property — so the `|| 10` default always applies. -/
def calculateRiskScore (buyOption sellOption : PriceEntry)
    (profitPercentage : JsNum) : JsNum :=
  let riskScore : JsNum := .num 50
  let riskScore := if buyOption.etype = .DEX then riskScore.add (.num 10) else riskScore
  let riskScore := if sellOption.etype = .DEX then riskScore.add (.num 10) else riskScore
  let riskScore :=
    riskScore.add (((JsNum.num 5).sub ((JsNum.num 5).jmin profitPercentage)).mul (.num 5))
  let riskScore := riskScore.add (.num 10)
  (JsNum.num 0).jmax ((JsNum.num 100).jmin riskScore)

/-- `ArbitrageService.calculateConfidence` of the Track1 variant. -/
def calculateConfidence (buyOption sellOption : PriceEntry)
    (profitPercentage : JsNum) : JsNum :=
  let confidence : JsNum := .num 0.7
  let confidence := confidence.mul (.num (exchangeReliability buyOption.exchange))
  let confidence := confidence.mul (.num (exchangeReliability sellOption.exchange))
  let confidence := confidence.add ((JsNum.num 0.2).jmin (profitPercentage.div (.num 10)))
  (JsNum.num 0).jmax ((JsNum.num 1).jmin confidence)

/-- `ArbitrageService.calculateGasCost`: flat 15 per DEX leg. -/
def calculateGasCost (buyExchange sellExchange : ExchangeInfo) : ℚ :=
  (if buyExchange.etype = .DEX then 15 else 0) +
  (if sellExchange.etype = .DEX then 15 else 0)

/-- Per-asset body of the Track1 `detectArbitrageOpportunities`: sort the
cached entries by price ascending, then for every ordered index pair `i ≠ j`
compute the gross profit percentage `((sell - buy) / buy) * 100`; whenever it
strictly exceeds the threshold, push a route (with flat 0.2% fee estimates and
the gross percentage) and create a persisted opportunity unconditionally.
The extra Track1-only insert fields (`riskScore`, venue kinds, `detectedAt`)
are outside the stored schema modelled here. -/
def detectAsset (minProfitThreshold : ℚ) (asset : String)
    (assetPrices : List PriceEntry) (acc : List Route × Store) :
    List Route × Store :=
  let sorted := assetPrices.insertionSort (fun a b => a.price ≤ b.price)
  let indexed := sorted.enum
  indexed.foldl (fun acc1 bi =>
    indexed.foldl (fun acc2 sj =>
      if bi.1 = sj.1 then acc2
      else
        let buyOption := bi.2
        let sellOption := sj.2
        let profitPercentage := jsPct (sellOption.price - buyOption.price) buyOption.price
        if profitPercentage.jgt (.num minProfitThreshold) then
          let riskScore := calculateRiskScore buyOption sellOption profitPercentage
          let confidence := calculateConfidence buyOption sellOption profitPercentage
          let estimatedProfitAmount :=
            sellOption.price - buyOption.price - buyOption.price * 0.002 - sellOption.price * 0.002
          let route : Route :=
            { asset := asset,
              steps := [⟨buyOption.exchange, buyOption.etype, .buy, buyOption.price, 1,
                         buyOption.price * 0.002⟩,
                        ⟨sellOption.exchange, sellOption.etype, .sell, sellOption.price, 1,
                         sellOption.price * 0.002⟩],
              estimatedProfitAmount := estimatedProfitAmount,
              estimatedProfitPercentage := profitPercentage,
              riskScore := riskScore,
              confidence := confidence }
          let insertOpp : OppData :=
            { asset := asset,
              buyExchange := buyOption.exchange,
              sellExchange := sellOption.exchange,
              buyPrice := buyOption.price,
              sellPrice := sellOption.price,
              profitPercentage := profitPercentage,
              profitAmount := estimatedProfitAmount,
              isActive := true }
          (acc2.1 ++ [route], acc2.2.createArbitrageOpportunity insertOpp)
        else acc2)
      acc1)
    acc

/-- `ArbitrageService.detectArbitrageOpportunities` of the Track1 variant:
scan every asset, appending routes in place and creating one persisted
opportunity per kept pair (no deduplication and no deactivation). -/
def detectArbitrageOpportunities (minProfitThreshold : ℚ) (assets : List String)
    (exchanges : List ExchangeInfo) (cache : PriceCache)
    (routes : List Route) (st : Store) : List Route × Store :=
  assets.foldl
    (fun acc asset =>
      detectAsset minProfitThreshold asset (Main.assetPricesFor exchanges cache asset) acc)
    (routes, st)

end Track1

namespace Track1

/-- Mutable service state touched by the Track1 `executeTrade`. -/
structure ServiceState where
  activeExecutions : ℕ
  executionHistory : List ExecutionSummary
  store : Store
  priceCache : PriceCache
deriving Repr

/-- Outcome of one Track1 `executeTrade` call. -/
structure ExecOutcome where
  result : Except ExecError ExecutionSummary
  state : ServiceState
  calls : List TradeCall
deriving Repr

/-- `ArbitrageService.getCurrentPrice`. -/
def getCurrentPrice (cache : PriceCache) (asset exchangeName : String) : Option ℚ :=
  (cache.lookup exchangeName).bind (fun m => m.lookup asset)

/-- JavaScript truthiness of `number | undefined`: `undefined` and `0` are
falsy (the source's `!currentBuyPrice` check therefore also rejects a cached
price of exactly zero). -/
def truthy : Option ℚ → Bool
  | none => false
  | some q => decide (q ≠ 0)

/-- `ArbitrageService.executeTrade` of the Track1 variant
(`Track1_Arbitrage/server/services/arbitrage.ts`).  Control flow mirrors the
source: opportunity lookup, cached-price revalidation of the gross spread
percentage (before fees) against the threshold, throttle check, counter
increment; inside the try block the two legs, with the sell executed for
`buyResult.amount`; the `isActive: false` storage update and the history
append happen on every path on which the buy leg succeeded, whether or not
the sell leg did; the `finally` decrement on every path that incremented. -/
def executeTrade (minProfitThreshold : ℚ) (maxConcurrentExecutions : ℕ)
    (exchanges : List ExchangeInfo)
    (trade : String → String → ℚ → Side → TradeResult)
    (elapsedMs : ℚ) (opportunityId : ℕ) (s : ServiceState) : ExecOutcome :=
  match s.store.getArbitrageOpportunity opportunityId with
  | none => ⟨.error (.notFound opportunityId), s, []⟩
  | some opportunity =>
    let currentBuyPrice := getCurrentPrice s.priceCache opportunity.asset opportunity.buyExchange
    let currentSellPrice := getCurrentPrice s.priceCache opportunity.asset opportunity.sellExchange
    if !(truthy currentBuyPrice) || !(truthy currentSellPrice) then
      ⟨.error .priceUnavailable, s, []⟩
    else
      let buyP := currentBuyPrice.getD 0
      let sellP := currentSellPrice.getD 0
      let currentProfitPercentage := ((sellP - buyP) / buyP) * 100
      if currentProfitPercentage < minProfitThreshold then
        ⟨.error (.noLongerProfitable currentProfitPercentage), s, []⟩
      else if maxConcurrentExecutions ≤ s.activeExecutions then
        ⟨.error .throttled, s, []⟩
      else
        let s1 : ServiceState := { s with activeExecutions := s.activeExecutions + 1 }
        match exchanges.find? (fun e => e.name = opportunity.buyExchange) with
        | none =>
            ⟨.error (.exchangeNotFound opportunity.buyExchange),
             { s1 with activeExecutions := s1.activeExecutions - 1 }, []⟩
        | some buyExchange =>
          match exchanges.find? (fun e => e.name = opportunity.sellExchange) with
          | none =>
              ⟨.error (.exchangeNotFound opportunity.sellExchange),
               { s1 with activeExecutions := s1.activeExecutions - 1 }, []⟩
          | some sellExchange =>
            let buyResult := trade buyExchange.name opportunity.asset 1 .buy
            let calls1 : List TradeCall := [⟨buyExchange.name, opportunity.asset, 1, Side.buy⟩]
            if !buyResult.success then
              ⟨.error (.legFailed buyExchange.name buyResult.error),
               { s1 with activeExecutions := s1.activeExecutions - 1 }, calls1⟩
            else
              let sellResult := trade sellExchange.name opportunity.asset buyResult.amount .sell
              let calls2 := calls1 ++
                [⟨sellExchange.name, opportunity.asset, buyResult.amount, Side.sell⟩]
              let buyTotal := buyResult.amount * buyResult.price + buyResult.fee
              let sellTotal := sellResult.amount * sellResult.price - sellResult.fee
              let actualProfit := sellTotal - buyTotal
              let actualProfitPercentage := jsPct actualProfit buyTotal
              let gasCost := calculateGasCost buyExchange sellExchange
              let executionSummary : ExecutionSummary :=
                { routeId := toString opportunity.id,
                  success := sellResult.success,
                  asset := opportunity.asset,
                  steps :=
                    [⟨buyExchange.name, .buy, opportunity.buyPrice, buyResult.price,
                      buyResult.amount, buyResult.fee, buyResult.success,
                      some buyResult.txId, none⟩,
                     ⟨sellExchange.name, .sell, opportunity.sellPrice, sellResult.price,
                      sellResult.amount, sellResult.fee, sellResult.success,
                      some sellResult.txId, none⟩],
                  expectedProfit := opportunity.profitAmount,
                  actualProfit := actualProfit,
                  profitDifference := actualProfit - opportunity.profitAmount,
                  gasCost := gasCost,
                  netProfit := actualProfit - gasCost,
                  executionTimeMs := elapsedMs }
              ⟨.ok executionSummary,
               { activeExecutions := s1.activeExecutions - 1,
                 executionHistory := s1.executionHistory ++ [executionSummary],
                 store := s1.store.updateArbitrageOpportunity opportunityId
                   (fun o => { o with
                       isActive := false,
                       actualProfit := some (.num actualProfit),
                       actualProfitPercentage := some actualProfitPercentage }),
                 priceCache := s1.priceCache },
               calls2⟩

/-- Return value of the Track1 `getPerformanceMetrics`. -/
structure Metrics where
  totalExecutions : ℕ
  successfulExecutions : ℕ
  failedExecutions : ℕ
  successRate : ℚ
  totalProfit : ℚ
  averageProfit : ℚ
  averageExecutionTimeMs : ℤ
  profitByAsset : List (String × ℚ)
  monitoredExchanges : ℕ
  monitoredAssets : List String
  activeOpportunities : ℕ
deriving DecidableEq, Repr

/-- `ArbitrageService.getPerformanceMetrics` of the Track1 variant: counts,
guarded rate and average, profit summed over all executions, average time
guarded by `Math.max(1, total)`, per-asset accumulation over all executions,
plus the monitoring gauges. -/
def getPerformanceMetrics (history : List ExecutionSummary)
    (exchanges : List ExchangeInfo) (assets : List String)
    (routes : List Route) : Metrics :=
  let totalExecutions := history.length
  let successfulExecutions := (history.filter (fun e => e.success)).length
  let totalProfit := history.foldl (fun sum e => sum + e.netProfit) 0
  let averageProfit : ℚ :=
    if 0 < totalExecutions then totalProfit / totalExecutions else 0
  let successRate : ℚ :=
    if 0 < totalExecutions then ((successfulExecutions : ℚ) / totalExecutions) * 100 else 0
  let avgExecutionTime : ℚ :=
    (history.foldl (fun sum e => sum + e.executionTimeMs) 0) / (max 1 totalExecutions : ℕ)
  { totalExecutions := totalExecutions,
    successfulExecutions := successfulExecutions,
    failedExecutions := totalExecutions - successfulExecutions,
    successRate := successRate,
    totalProfit := totalProfit,
    averageProfit := averageProfit,
    averageExecutionTimeMs := jsRound avgExecutionTime,
    profitByAsset := history.foldl (fun m e => addProfit m e.asset e.netProfit) [],
    monitoredExchanges := exchanges.length,
    monitoredAssets := assets,
    activeOpportunities := routes.length }

end Track1

/-!
Interleaving model of the concurrency limiter.  JavaScript runs callbacks
atomically between `await` points, so each `executeTrade` call decomposes into
atomic segments.  The segment that touches the limiter first is the
gate: `if (activeExecutions >= maxConcurrentExecutions) throw` followed (in
the same segment, with no intervening `await`) by `activeExecutions++`; every
later path through the call body performs exactly one `activeExecutions--`
(shown at the function level by the counter-neutrality conjuncts of the C3
theorem).  A call is therefore: arrive; either be rejected at the gate with
the counter untouched, or acquire (counter +1), run some number of further
segments, and release (counter -1) exactly once.
-/

/-- Phase of one call in the interleaving model: not yet at the gate (with the
number of body segments its script will take), holding a slot with so many
segments left, rejected at the gate, or finished after its single release. -/
inductive CallPhase where
  | arrived (bodySegs : ℕ)
  | holding (segsLeft : ℕ)
  | rejected
  | finished
deriving DecidableEq, Repr

/-- Does this phase hold a concurrency slot? -/
def isHolding : CallPhase → Bool
  | .holding _ => true
  | _ => false

/-- Shared state of the interleaving model: the `activeExecutions` counter and
the phase of each of the `n` calls in the population. -/
structure LimState (n : ℕ) where
  active : ℕ
  calls : Fin n → CallPhase

/-- Number of calls currently holding a slot. -/
def countHolding {n : ℕ} (c : Fin n → CallPhase) : ℕ :=
  Finset.univ.sum (fun j => if isHolding (c j) then 1 else 0)

/-- Atomic transitions of the limiter: gate rejection (counter untouched, the
call fails fast instead of blocking), gate acquisition (guarded check and
increment in one segment), an internal body segment, and the single release. -/
inductive LimStep (maxConc : ℕ) {n : ℕ} : LimState n → LimState n → Prop where
  | throttle (s : LimState n) (i : Fin n) (k : ℕ) :
      s.calls i = .arrived k → maxConc ≤ s.active →
      LimStep maxConc s ⟨s.active, Function.update s.calls i .rejected⟩
  | acquire (s : LimState n) (i : Fin n) (k : ℕ) :
      s.calls i = .arrived k → s.active < maxConc →
      LimStep maxConc s ⟨s.active + 1, Function.update s.calls i (.holding k)⟩
  | work (s : LimState n) (i : Fin n) (k : ℕ) :
      s.calls i = .holding (k + 1) →
      LimStep maxConc s ⟨s.active, Function.update s.calls i (.holding k)⟩
  | release (s : LimState n) (i : Fin n) :
      s.calls i = .holding 0 →
      LimStep maxConc s ⟨s.active - 1, Function.update s.calls i .finished⟩

/-- Initial state for a population whose scripts take `script i` body
segments: no call has passed the gate yet. -/
def limInit {n : ℕ} (script : Fin n → ℕ) : LimState n :=
  ⟨0, fun i => .arrived (script i)⟩

/-- Reachability under any interleaving. -/
def LimReachable (maxConc : ℕ) {n : ℕ} (s t : LimState n) : Prop :=
  Relation.ReflTransGen (LimStep maxConc) s t

/-- The limiter invariant: the counter equals the number of slot holders and
never exceeds the bound. -/
def LimInv (maxConc : ℕ) {n : ℕ} (s : LimState n) : Prop :=
  s.active = countHolding s.calls ∧ s.active ≤ maxConc

/-- Updating one call's phase changes the holder count by the difference of
the old and new phase's holder contribution. -/
lemma countHolding_update {n : ℕ} (c : Fin n → CallPhase) (i : Fin n) (v : CallPhase) :
    countHolding (Function.update c i v) + (if isHolding (c i) then 1 else 0)
      = countHolding c + (if isHolding v then 1 else 0) := by
  classical
  unfold countHolding
  have h : (fun j => if isHolding (Function.update c i v j) then (1 : ℕ) else 0)
      = Function.update (fun j => if isHolding (c j) then (1 : ℕ) else 0) i
          (if isHolding v then 1 else 0) := by
    funext j
    by_cases hj : j = i
    · subst hj; simp [Function.update]
    · simp [Function.update, hj]
  rw [h, Finset.sum_update_of_mem (Finset.mem_univ i),
      Finset.sum_eq_add_sum_diff_singleton (Finset.mem_univ i)
        (fun j => if isHolding (c j) then (1 : ℕ) else 0)]
  omega

/-- A call holding a slot witnesses a positive holder count. -/
lemma one_le_countHolding {n : ℕ} (c : Fin n → CallPhase) (i : Fin n)
    (h : isHolding (c i) = true) : 1 ≤ countHolding c := by
  have := Finset.single_le_sum
    (f := fun j => if isHolding (c j) then (1 : ℕ) else 0)
    (fun j _ => Nat.zero_le _) (Finset.mem_univ i)
  simp only [h, if_true] at this
  simpa [countHolding] using this

/-- Every limiter transition preserves the invariant. -/
lemma LimStep.preserves {maxConc n : ℕ} {s t : LimState n}
    (hst : LimStep maxConc s t) (h : LimInv maxConc s) : LimInv maxConc t := by
  obtain ⟨h1, h2⟩ := h
  cases hst with
  | throttle i k hc hfull =>
      have hcu := countHolding_update s.calls i CallPhase.rejected
      rw [hc] at hcu
      simp [isHolding] at hcu
      refine ⟨?_, h2⟩
      show s.active = countHolding (Function.update s.calls i CallPhase.rejected)
      omega
  | acquire i k hc hfree =>
      have hcu := countHolding_update s.calls i (CallPhase.holding k)
      rw [hc] at hcu
      simp [isHolding] at hcu
      refine ⟨?_, ?_⟩
      · show s.active + 1 = countHolding (Function.update s.calls i (CallPhase.holding k))
        omega
      · show s.active + 1 ≤ maxConc
        omega
  | work i k hc =>
      have hcu := countHolding_update s.calls i (CallPhase.holding k)
      rw [hc] at hcu
      simp [isHolding] at hcu
      refine ⟨?_, h2⟩
      show s.active = countHolding (Function.update s.calls i (CallPhase.holding k))
      omega
  | release i hc =>
      have hcu := countHolding_update s.calls i CallPhase.finished
      rw [hc] at hcu
      simp [isHolding] at hcu
      have hpos : 1 ≤ countHolding s.calls :=
        one_le_countHolding s.calls i (by rw [hc]; rfl)
      refine ⟨?_, ?_⟩
      · show s.active - 1 = countHolding (Function.update s.calls i CallPhase.finished)
        omega
      · show s.active - 1 ≤ maxConc
        omega

/-- The limiter invariant holds in every state reachable from the initial
state under any interleaving. -/
lemma limReachable_inv {maxConc n : ℕ} (script : Fin n → ℕ) {t : LimState n}
    (h : LimReachable maxConc (limInit script) t) : LimInv maxConc t := by
  induction h with
  | refl =>
      refine ⟨?_, by simp [limInit]⟩
      simp [limInit, countHolding, isHolding]
  | tail _ hstep ih => exact hstep.preserves ih

/-- The main `executeTrade` is counter-neutral: whatever path it takes, the
`activeExecutions` counter after the call equals the counter before it
(the throttled path never increments; every other path pairs its increment
with exactly one decrement). -/
lemma main_executeTrade_active (m : ℕ) (ex : List ExchangeInfo) (rts : List Route)
    (tr : String → String → ℚ → Side → TradeResult) (el : ℚ) (oid : ℕ) (s : Main.MainState) :
    (Main.executeTrade m ex rts tr el oid s).state.activeExecutions = s.activeExecutions := by
  unfold Main.executeTrade
  dsimp only
  repeat' split
  all_goals rfl

/-- A main-variant call arriving while the counter is at the bound fails fast
with `Throttled`, touches no state, and makes no adapter call (the gate is the
first statement, before the increment). -/
lemma main_executeTrade_throttled (m : ℕ) (ex : List ExchangeInfo) (rts : List Route)
    (tr : String → String → ℚ → Side → TradeResult) (el : ℚ) (oid : ℕ) (s : Main.MainState)
    (h : m ≤ s.activeExecutions) :
    Main.executeTrade m ex rts tr el oid s = ⟨.error .throttled, s, []⟩ := by
  unfold Main.executeTrade
  rw [if_pos h]

/-- The Track1 `executeTrade` is likewise counter-neutral on every path. -/
lemma track1_executeTrade_active (θ : ℚ) (m : ℕ) (ex : List ExchangeInfo)
    (tr : String → String → ℚ → Side → TradeResult) (el : ℚ) (oid : ℕ)
    (s : Track1.ServiceState) :
    (Track1.executeTrade θ m ex tr el oid s).state.activeExecutions = s.activeExecutions := by
  unfold Track1.executeTrade
  dsimp only
  repeat' split
  all_goals rfl

/-- The Track1 `executeTrade` returns `Throttled` only when the counter was at
the bound on arrival, and then leaves the state untouched. -/
lemma track1_executeTrade_throttled (θ : ℚ) (m : ℕ) (ex : List ExchangeInfo)
    (tr : String → String → ℚ → Side → TradeResult) (el : ℚ) (oid : ℕ)
    (s : Track1.ServiceState) :
    (Track1.executeTrade θ m ex tr el oid s).result = .error .throttled →
      m ≤ s.activeExecutions ∧ (Track1.executeTrade θ m ex tr el oid s).state = s := by
  unfold Track1.executeTrade
  dsimp only
  repeat' split
  all_goals simp_all

/-- A Track1 call arriving while the counter is at the bound fails (with
`Throttled` at the gate, or with one of the pre-gate errors), touches no
state, and makes no adapter call. -/
lemma track1_executeTrade_full (θ : ℚ) (m : ℕ) (ex : List ExchangeInfo)
    (tr : String → String → ℚ → Side → TradeResult) (el : ℚ) (oid : ℕ)
    (s : Track1.ServiceState) (h : m ≤ s.activeExecutions) :
    (∃ e, (Track1.executeTrade θ m ex tr el oid s).result = .error e)
    ∧ (Track1.executeTrade θ m ex tr el oid s).state = s
    ∧ (Track1.executeTrade θ m ex tr el oid s).calls = [] := by
  unfold Track1.executeTrade
  dsimp only
  repeat' split
  all_goals simp_all

/-- Does this `executeTrade` outcome record an execution summary in the main
variant?  (Exactly the outcomes whose control flow reached the inner
try block: settled executions and leg-phase failures; the early aborts
`Throttled`, `NotFound`, `Stale` record nothing.) -/
def mainRecorded : Except ExecError ExecutionSummary → Bool
  | .ok _ => true
  | .error (.exchangeNotFound _) => true
  | .error (.legFailed _ _) => true
  | .error _ => false

/-- The step loop of the main `executeTrade` only ever produces
missing-exchange or failed-leg errors (both of which record a summary). -/
lemma main_runSteps_recorded (tr : String → String → ℚ → Side → TradeResult)
    (ex : List ExchangeInfo) (asset : String) :
    ∀ (steps : List RouteStep) (acc : List SummaryStep) (calls : List TradeCall)
      (e : ExecError),
      (Main.runSteps tr ex asset steps acc calls).2.2 = some e →
      mainRecorded (.error e) = true := by
  intro steps
  induction steps with
  | nil =>
      intro acc calls e h
      simp [Main.runSteps] at h
  | cons step rest ih =>
      intro acc calls e h
      unfold Main.runSteps at h
      dsimp only at h
      split at h
      · simp only [Option.some.injEq] at h
        subst h
        rfl
      · split at h
        · exact ih _ _ _ h
        · simp only [Option.some.injEq] at h
          subst h
          rfl

/-- The main `executeTrade` appends exactly one summary to the execution
history when its outcome reached the leg phase, and none on the early aborts. -/
lemma main_executeTrade_history (m : ℕ) (ex : List ExchangeInfo) (rts : List Route)
    (tr : String → String → ℚ → Side → TradeResult) (el : ℚ) (oid : ℕ) (s : Main.MainState) :
    (Main.executeTrade m ex rts tr el oid s).state.executionHistory.length
      = s.executionHistory.length
        + (if mainRecorded (Main.executeTrade m ex rts tr el oid s).result then 1 else 0) := by
  unfold Main.executeTrade
  dsimp only
  split
  · simp [mainRecorded]
  · split
    · simp [mainRecorded]
    · split
      · simp [mainRecorded]
      · split
        · rename_i e heq
          have hrec := main_runSteps_recorded tr ex _ _ _ _ e heq
          simp [hrec]
        · simp [mainRecorded]

/-- The Track1 `executeTrade` appends exactly one summary when it settles
(successfully or with a failed sell leg, both of which return a summary), and
none on any thrown error — including a buy-leg failure. -/
lemma track1_executeTrade_history (θ : ℚ) (m : ℕ) (ex : List ExchangeInfo)
    (tr : String → String → ℚ → Side → TradeResult) (el : ℚ) (oid : ℕ)
    (s : Track1.ServiceState) :
    (Track1.executeTrade θ m ex tr el oid s).state.executionHistory.length
      = s.executionHistory.length
        + (if (Track1.executeTrade θ m ex tr el oid s).result.isOk then 1 else 0) := by
  unfold Track1.executeTrade
  dsimp only
  repeat' split
  all_goals simp_all [Except.isOk, Except.toBool]

/-- On every error outcome the main `executeTrade` leaves the opportunity
store untouched (the `isActive: false` update happens only on the success
path). -/
lemma main_executeTrade_store_on_error (m : ℕ) (ex : List ExchangeInfo) (rts : List Route)
    (tr : String → String → ℚ → Side → TradeResult) (el : ℚ) (oid : ℕ) (s : Main.MainState)
    (e : ExecError) (h : (Main.executeTrade m ex rts tr el oid s).result = .error e) :
    (Main.executeTrade m ex rts tr el oid s).state.store = s.store := by
  revert h
  unfold Main.executeTrade
  dsimp only
  repeat' split
  all_goals simp_all

/-- On every error outcome the Track1 `executeTrade` leaves the opportunity
store untouched (its update happens only once the buy leg has succeeded). -/
lemma track1_executeTrade_store_on_error (θ : ℚ) (m : ℕ) (ex : List ExchangeInfo)
    (tr : String → String → ℚ → Side → TradeResult) (el : ℚ) (oid : ℕ)
    (s : Track1.ServiceState) (e : ExecError)
    (h : (Track1.executeTrade θ m ex tr el oid s).result = .error e) :
    (Track1.executeTrade θ m ex tr el oid s).state.store = s.store := by
  revert h
  unfold Track1.executeTrade
  dsimp only
  repeat' split
  all_goals simp_all

/-- Leg chaining in the Track1 `executeTrade`: whenever both legs were
executed (two adapter calls were made), the first was a buy for the fixed
amount 1.0 and the second a sell for exactly the amount reported by the buy
leg's trade result. -/
lemma track1_executeTrade_chains (θ : ℚ) (m : ℕ) (ex : List ExchangeInfo)
    (tr : String → String → ℚ → Side → TradeResult) (el : ℚ) (oid : ℕ)
    (s : Track1.ServiceState) (c0 c1 : TradeCall)
    (h : (Track1.executeTrade θ m ex tr el oid s).calls = [c0, c1]) :
    c0.side = .buy ∧ c0.amount = 1 ∧ c1.side = .sell
      ∧ c1.amount = (tr c0.exchange c0.asset c0.amount c0.side).amount := by
  revert h
  unfold Track1.executeTrade
  dsimp only
  repeat' split
  all_goals intro h
  all_goals first
    | (simp only [List.singleton_append, List.cons.injEq, and_true] at h
       obtain ⟨h0, h1⟩ := h
       subst h0
       subst h1
       simp)
    | simp_all

/-- Pre-execution revalidation in the Track1 `executeTrade`: when the cached
prices for both legs are present (and truthy) and the recomputed gross spread
percentage is below the threshold, the call fails with `NoLongerProfitable`
carrying that percentage, changes nothing, and executes no leg. -/
lemma track1_executeTrade_revalidates (θ : ℚ) (m : ℕ) (ex : List ExchangeInfo)
    (tr : String → String → ℚ → Side → TradeResult) (el : ℚ) (oid : ℕ)
    (s : Track1.ServiceState) (opportunity : StoredOpp) (buyP sellP : ℚ)
    (hopp : s.store.getArbitrageOpportunity oid = some opportunity)
    (hbuy : Track1.getCurrentPrice s.priceCache opportunity.asset opportunity.buyExchange = some buyP)
    (hsell : Track1.getCurrentPrice s.priceCache opportunity.asset opportunity.sellExchange = some sellP)
    (hb0 : buyP ≠ 0) (hs0 : sellP ≠ 0)
    (hlow : ((sellP - buyP) / buyP) * 100 < θ) :
    Track1.executeTrade θ m ex tr el oid s
      = ⟨.error (.noLongerProfitable (((sellP - buyP) / buyP) * 100)), s, []⟩ := by
  unfold Track1.executeTrade
  rw [hopp]
  simp only [hbuy, hsell, Track1.truthy, hb0, hs0, Option.getD_some]
  simp [hlow, hb0, hs0]

/-- The main `executeTrade` never reads the price cache: its result, its
effect on the counter, history and store, and the adapter calls it makes are
all invariant under replacing the cached prices — i.e. this variant performs
no pre-execution revalidation against current prices. -/
lemma main_executeTrade_ignores_cache (m : ℕ) (ex : List ExchangeInfo) (rts : List Route)
    (tr : String → String → ℚ → Side → TradeResult) (el : ℚ) (oid : ℕ)
    (s : Main.MainState) (pc : PriceCache) :
    (Main.executeTrade m ex rts tr el oid { s with priceCache := pc }).result
        = (Main.executeTrade m ex rts tr el oid s).result
      ∧ (Main.executeTrade m ex rts tr el oid { s with priceCache := pc }).calls
        = (Main.executeTrade m ex rts tr el oid s).calls
      ∧ (Main.executeTrade m ex rts tr el oid { s with priceCache := pc }).state.store
        = (Main.executeTrade m ex rts tr el oid s).state.store
      ∧ (Main.executeTrade m ex rts tr el oid { s with priceCache := pc }).state.executionHistory
        = (Main.executeTrade m ex rts tr el oid s).state.executionHistory := by
  unfold Main.executeTrade
  dsimp only
  repeat' split
  all_goals simp_all

/-- With a nonzero denominator the JavaScript percentage is the exact rational
percentage. -/
lemma jsPct_nonzero (a b : ℚ) (hb : b ≠ 0) : jsPct a b = .num (a / b * 100) := by
  simp [jsPct, JsNum.div, JsNum.mul, hb]

/-- The JavaScript percentage is `Infinity` only for a zero denominator (with
a positive numerator). -/
lemma jsPct_inf (a b : ℚ) (h : jsPct a b = .inf) : b = 0 ∧ 0 < a := by
  by_cases hb : b = 0
  · subst hb
    refine ⟨rfl, ?_⟩
    by_contra ha
    push_neg at ha
    rcases lt_or_eq_of_le ha with ha' | ha'
    · simp [jsPct, JsNum.div, JsNum.mul, not_lt.mpr (le_of_lt ha'), ha'] at h
    · simp [jsPct, JsNum.div, JsNum.mul, ← ha'] at h
  · rw [jsPct_nonzero a b hb] at h
    cases h

/-- Generic fold lifting: if a step function only keeps old routes or produces
routes satisfying `P`, so does its fold. -/
lemma foldl_mem_or {α : Type} {P : Route → Prop} (f : List Route → α → List Route)
    (hf : ∀ rs a r, r ∈ f rs a → r ∈ rs ∨ P r) :
    ∀ (l : List α) (rs : List Route) (r : Route), r ∈ l.foldl f rs → r ∈ rs ∨ P r := by
  intro l
  induction l with
  | nil => intro rs r h; exact Or.inl h
  | cons a l ih =>
      intro rs r h
      rcases ih (f rs a) r h with h' | h'
      · exact hf rs a r h'
      · exact Or.inr h'

/-- Every route the main pair loop adds passed the JavaScript threshold check,
and its stored percentage is the fee-adjusted percentage of its buy price. -/
lemma considerPair_cases (θ : ℚ) (asset : String) (rs : List Route) (b s' : PriceEntry)
    (r : Route) (h : r ∈ Main.considerPair θ asset rs b s') :
    r ∈ rs ∨ (r.estimatedProfitPercentage.jge (.num θ) = true ∧
      ∃ bp net : ℚ, (r.steps.get? 0).map RouteStep.expectedPrice = some bp ∧
        r.estimatedProfitPercentage = jsPct net bp) := by
  unfold Main.considerPair at h
  dsimp only at h
  split at h
  · exact Or.inl h
  · split at h
    · split at h
      · exact Or.inl h
      · rcases List.mem_append.mp h with h' | h'
        · exact Or.inl h'
        · rename_i hjge _
          have hr := List.mem_singleton.mp h'
          subst hr
          exact Or.inr ⟨hjge, ⟨b.price, _, by simp, rfl⟩⟩
    · exact Or.inl h

/-- Characterization of routes added by the detector: past the threshold, with
the stored percentage computed against the route's buy price. -/
def NewRouteOk (θ : ℚ) (r : Route) : Prop :=
  r.estimatedProfitPercentage.jge (.num θ) = true ∧
    ∃ bp net : ℚ, (r.steps.get? 0).map RouteStep.expectedPrice = some bp ∧
      r.estimatedProfitPercentage = jsPct net bp

/-- Lifting of `considerPair_cases` over one asset's buy/sell option loops. -/
lemma detectAsset_cases (θ : ℚ) (asset : String) (prices : List PriceEntry)
    (rs : List Route) (r : Route) (h : r ∈ Main.detectAsset θ asset prices rs) :
    r ∈ rs ∨ NewRouteOk θ r := by
  unfold Main.detectAsset at h
  dsimp only at h
  refine foldl_mem_or _ ?_ _ _ _ h
  intro rs' bOpt r' h'
  exact foldl_mem_or _
    (fun rs'' sOpt r'' h'' => considerPair_cases θ asset rs'' bOpt sOpt r'' h'') _ _ _ h'

/-- Every route in the main detector's output either survived the
threshold-filter over the previous routes or is a new route past the
threshold. -/
lemma detect_cases (θ : ℚ) (assets : List String) (exchanges : List ExchangeInfo)
    (cache : PriceCache) (old : List Route) (r : Route)
    (h : r ∈ Main.detectArbitrageOpportunities θ assets exchanges cache old) :
    (r ∈ old ∧ r.estimatedProfitPercentage.jge (.num θ) = true) ∨ NewRouteOk θ r := by
  unfold Main.detectArbitrageOpportunities at h
  dsimp only at h
  have h' := (List.perm_insertionSort _ _).mem_iff.mp h
  rcases foldl_mem_or _
      (fun rs a r' hh =>
        detectAsset_cases θ a (Main.assetPricesFor exchanges cache a) rs r' hh)
      assets _ r h' with hold | hnew
  · exact Or.inl (by simpa using List.mem_filter.mp hold)
  · exact Or.inr hnew

/-- Triple equality on detector projections. -/
def tripleEq (a b : OppData) : Prop :=
  a.asset = b.asset ∧ a.buyExchange = b.buyExchange ∧ a.sellExchange = b.sellExchange

/-- Well-formedness of the store as `MemStorage` maintains it: ids are
pairwise distinct and below the id counter. -/
def StoreWF (st : Store) : Prop :=
  (∀ e ∈ st.opps, e.id < st.currentId) ∧ (st.opps.map StoredOpp.id).Nodup

namespace Main

/-- Each pass of the update loop issues exactly one update call per snapshot
entry. -/
lemma syncUpdateLoop_count (so : List OppData) :
    ∀ (eo : List StoredOpp) (acc : Store × ℕ),
      (syncUpdateLoop so eo acc).2 = acc.2 + eo.length := by
  intro eo
  induction eo with
  | nil => intro acc; rfl
  | cons e rest ih =>
      intro acc
      have hstep : syncUpdateLoop so (e :: rest) acc
          = syncUpdateLoop so rest (syncUpdateApply so e acc.1, acc.2 + 1) := rfl
      rw [hstep, ih]
      simp
      omega

/-- An entry with a different id survives one update-loop action unchanged. -/
lemma syncUpdateApply_mem (so : List OppData) (e : StoredOpp) (st : Store)
    (x : StoredOpp) (hx : x ∈ st.opps) (hne : x.id ≠ e.id) :
    x ∈ (syncUpdateApply so e st).opps := by
  unfold syncUpdateApply Store.updateArbitrageOpportunity
  split <;> exact List.mem_map.mpr ⟨x, hx, by simp [hne]⟩

/-- An entry whose id is touched by no remaining snapshot entry survives the
rest of the update loop unchanged. -/
lemma syncUpdateLoop_untouched (so : List OppData) :
    ∀ (eo : List StoredOpp) (acc : Store × ℕ) (x : StoredOpp),
      x ∈ acc.1.opps → (∀ e ∈ eo, e.id ≠ x.id) →
      x ∈ (syncUpdateLoop so eo acc).1.opps := by
  intro eo
  induction eo with
  | nil => intro acc x hx _; exact hx
  | cons e rest ih =>
      intro acc x hx hne
      have hstep : syncUpdateLoop so (e :: rest) acc
          = syncUpdateLoop so rest (syncUpdateApply so e acc.1, acc.2 + 1) := rfl
      rw [hstep]
      refine ih _ x ?_ (fun e' he' => hne e' (List.mem_cons_of_mem e he'))
      exact syncUpdateApply_mem so e acc.1 x hx (fun h => hne e (List.mem_cons_self e rest) h.symm)

/-- Patches keep the id. -/
lemma syncUpdatePatch_id (m : OppData) (o : StoredOpp) : (syncUpdatePatch m o).id = o.id := rfl

/-- Deactivation keeps the id. -/
lemma syncDeactivate_id (o : StoredOpp) : (syncDeactivate o).id = o.id := rfl

/-- The update loop applies its action to each snapshot entry exactly once:
when the snapshot's ids are distinct and the entry is present in the store,
its refreshed (or deactivated) version is present in the resulting store. -/
lemma syncUpdateLoop_patched (so : List OppData) :
    ∀ (eo : List StoredOpp) (acc : Store × ℕ) (e : StoredOpp),
      e ∈ eo → e ∈ acc.1.opps → (eo.map StoredOpp.id).Nodup →
      (match so.find? (fun o => tripleMatches e o) with
        | some m => syncUpdatePatch m e
        | none => syncDeactivate e) ∈ (syncUpdateLoop so eo acc).1.opps := by
  intro eo
  induction eo with
  | nil => intro acc e he; exact absurd he (List.not_mem_nil e)
  | cons e' rest ih =>
      intro acc e he hmem hnd
      have hstep : syncUpdateLoop so (e' :: rest) acc
          = syncUpdateLoop so rest (syncUpdateApply so e' acc.1, acc.2 + 1) := rfl
      rw [hstep]
      rw [List.map_cons, List.nodup_cons] at hnd
      rcases List.mem_cons.mp he with rfl | htail
      · have hpatched : (match so.find? (fun o => tripleMatches e o) with
            | some m => syncUpdatePatch m e
            | none => syncDeactivate e) ∈ (syncUpdateApply so e acc.1).opps := by
          unfold syncUpdateApply Store.updateArbitrageOpportunity
          split <;> exact List.mem_map.mpr ⟨e, hmem, by simp⟩
        refine syncUpdateLoop_untouched so rest _ _ hpatched ?_
        intro e'' he'' hid
        have hpid : (match so.find? (fun o => tripleMatches e o) with
            | some m => syncUpdatePatch m e
            | none => syncDeactivate e).id = e.id := by
          split <;> rfl
        exact hnd.1 (by rw [← hpid, ← hid]; exact List.mem_map_of_mem StoredOpp.id he'')
      · have hne : e.id ≠ e'.id := by
          intro h
          exact hnd.1 (h ▸ List.mem_map_of_mem StoredOpp.id htail)
        refine ih _ e htail ?_ hnd.2
        exact syncUpdateApply_mem so e' acc.1 e hmem hne

end Main

namespace Main

/-- The create loop only appends to the store and never lowers the id
counter. -/
lemma syncCreateLoop_appends (eo : List StoredOpp) :
    ∀ (so : List OppData) (acc : Store × ℕ),
      ∃ tail, (syncCreateLoop eo so acc).1.opps = acc.1.opps ++ tail
        ∧ acc.1.currentId ≤ (syncCreateLoop eo so acc).1.currentId := by
  intro so
  induction so with
  | nil => intro acc; exact ⟨[], by simp [syncCreateLoop], le_refl _⟩
  | cons o rest ih =>
      intro acc
      have hstep : syncCreateLoop eo (o :: rest) acc
          = syncCreateLoop eo rest
              (if syncCreateMatch eo o then acc
               else (acc.1.createArbitrageOpportunity o, acc.2 + 1)) := rfl
      rw [hstep]
      by_cases hm : syncCreateMatch eo o
      · rw [if_pos hm]; exact ih acc
      · rw [if_neg hm]
        obtain ⟨tail, ht, hle⟩ := ih (acc.1.createArbitrageOpportunity o, acc.2 + 1)
        refine ⟨Store.mkStoredOpp acc.1.currentId o :: tail, ?_, ?_⟩
        · rw [ht]
          simp [Store.createArbitrageOpportunity]
        · exact le_trans (Nat.le_succ _) hle

/-- A projection that fails the skip test is created: the resulting store
contains a fresh-id entry with its triple and profit percentage. -/
lemma syncCreateLoop_creates (eo : List StoredOpp) :
    ∀ (so : List OppData) (acc : Store × ℕ) (o : OppData),
      o ∈ so → syncCreateMatch eo o = false →
      ∃ x ∈ (syncCreateLoop eo so acc).1.opps,
        acc.1.currentId ≤ x.id ∧ tripleMatches x o = true
          ∧ x.profitPercentage = o.profitPercentage := by
  intro so
  induction so with
  | nil => intro acc o h; exact absurd h (List.not_mem_nil o)
  | cons o' rest ih =>
      intro acc o hmem hnomatch
      have hstep : syncCreateLoop eo (o' :: rest) acc
          = syncCreateLoop eo rest
              (if syncCreateMatch eo o' then acc
               else (acc.1.createArbitrageOpportunity o', acc.2 + 1)) := rfl
      rw [hstep]
      rcases List.mem_cons.mp hmem with rfl | htail
      · rw [if_neg (by simp [hnomatch])]
        obtain ⟨tail, ht, hle⟩ := syncCreateLoop_appends eo rest
          (acc.1.createArbitrageOpportunity o, acc.2 + 1)
        refine ⟨Store.mkStoredOpp acc.1.currentId o, ?_, ?_, ?_, ?_⟩
        · rw [ht]
          refine List.mem_append_left tail ?_
          exact List.mem_append_right _ (List.mem_singleton_self _)
        · exact le_refl _
        · simp [tripleMatches, Store.mkStoredOpp]
        · rfl
      · by_cases hm : syncCreateMatch eo o'
        · rw [if_pos hm]; exact ih acc o htail hnomatch
        · rw [if_neg hm]
          obtain ⟨x, hx, hid, htr, hp⟩ :=
            ih (acc.1.createArbitrageOpportunity o', acc.2 + 1) o htail hnomatch
          exact ⟨x, hx, le_trans (Nat.le_succ _) hid, htr, hp⟩

/-- When every projection is matched by the snapshot, the create loop issues
no calls and leaves everything unchanged. -/
lemma syncCreateLoop_none (eo : List StoredOpp) :
    ∀ (so : List OppData) (acc : Store × ℕ),
      (∀ o ∈ so, syncCreateMatch eo o = true) →
      syncCreateLoop eo so acc = acc := by
  intro so
  induction so with
  | nil => intro acc _; rfl
  | cons o rest ih =>
      intro acc h
      have hstep : syncCreateLoop eo (o :: rest) acc
          = syncCreateLoop eo rest
              (if syncCreateMatch eo o then acc
               else (acc.1.createArbitrageOpportunity o, acc.2 + 1)) := rfl
      rw [hstep, if_pos (h o (List.mem_cons_self o rest))]
      exact ih acc (fun o' h' => h o' (List.mem_cons_of_mem o h'))

end Main

namespace Main

/-- Unfolding of the boolean triple test. -/
lemma tripleMatches_iff (e : StoredOpp) (o : OppData) :
    tripleMatches e o = true ↔
      e.asset = o.asset ∧ e.buyExchange = o.buyExchange ∧ e.sellExchange = o.sellExchange := by
  simp [tripleMatches, and_assoc]

/-- After one sync pass over projections with pairwise-distinct triples, every
projection has a stored entry carrying its exact triple and profit
percentage (created fresh, or refreshed from the projection itself). -/
lemma sync_provides_match (routes : List Route) (st : Store)
    (hWF : StoreWF st)
    (hdist : (routes.filterMap routeToStorageOpp).Pairwise (fun a b => ¬ tripleEq a b))
    (o : OppData) (ho : o ∈ routes.filterMap routeToStorageOpp) :
    ∃ x ∈ (syncRoutesToStorage routes st).store.opps,
      tripleMatches x o = true ∧ x.profitPercentage = o.profitPercentage := by
  unfold syncRoutesToStorage
  dsimp only
  by_cases hB : syncCreateMatch st.opps o
  · unfold syncCreateMatch at hB
    obtain ⟨e, he, hprop⟩ := List.any_eq_true.mp hB
    have htr : tripleMatches e o = true := by
      rw [Bool.and_eq_true] at hprop
      exact hprop.1
    have hfsome : ((routes.filterMap routeToStorageOpp).find?
        (fun o' => tripleMatches e o')).isSome :=
      List.find?_isSome.mpr ⟨o, ho, htr⟩
    obtain ⟨m, hm⟩ := Option.isSome_iff_exists.mp hfsome
    have hm_mem : m ∈ routes.filterMap routeToStorageOpp := List.mem_of_find?_eq_some hm
    have hm_tr : tripleMatches e m = true := List.find?_some hm
    have heq : tripleEq m o := by
      obtain ⟨h1, h2, h3⟩ := (tripleMatches_iff e o).mp htr
      obtain ⟨h1', h2', h3'⟩ := (tripleMatches_iff e m).mp hm_tr
      exact ⟨h1'.symm.trans h1, h2'.symm.trans h2, h3'.symm.trans h3⟩
    have hsymm : Symmetric (fun a b : OppData => ¬ tripleEq a b) := by
      intro a b h hy
      exact h ⟨hy.1.symm, hy.2.1.symm, hy.2.2.symm⟩
    have hmo : m = o := by
      by_contra hne
      exact (hdist.forall hsymm hm_mem ho hne) heq
    obtain ⟨tail, ht, hle⟩ :=
      syncCreateLoop_appends st.opps (routes.filterMap routeToStorageOpp) (st, 0)
    have he' : e ∈ (syncCreateLoop st.opps (routes.filterMap routeToStorageOpp) (st, 0)).1.opps := by
      rw [ht]; exact List.mem_append_left tail he
    have hpatched := syncUpdateLoop_patched (routes.filterMap routeToStorageOpp) st.opps
      ((syncCreateLoop st.opps (routes.filterMap routeToStorageOpp) (st, 0)).1, 0) e he he' hWF.2
    rw [hm] at hpatched
    refine ⟨syncUpdatePatch m e, hpatched, ?_, ?_⟩
    · obtain ⟨h1, h2, h3⟩ := (tripleMatches_iff e o).mp htr
      exact (tripleMatches_iff _ o).mpr ⟨h1, h2, h3⟩
    · rw [hmo]; rfl
  · obtain ⟨x, hx, hid, htr, hp⟩ :=
      syncCreateLoop_creates st.opps (routes.filterMap routeToStorageOpp) (st, 0) o ho
        (by simpa using hB)
    have hid2 : st.currentId ≤ x.id := hid
    have hne : ∀ e ∈ st.opps, e.id ≠ x.id := by
      intro e he h
      have := hWF.1 e he
      omega
    exact ⟨x, syncUpdateLoop_untouched (routes.filterMap routeToStorageOpp) st.opps _ x hx hne,
      htr, hp⟩

end Main

namespace Main

/-- Every sync pass issues one update call per already-persisted opportunity —
in particular a second pass over an unchanged store is not write-free. -/
lemma sync_updates_eq (routes : List Route) (st : Store) :
    (Main.syncRoutesToStorage routes st).updates = st.opps.length := by
  unfold Main.syncRoutesToStorage
  dsimp only
  rw [syncUpdateLoop_count]
  simp

/-- When every projection is matched by the current store, a sync pass issues
no create calls. -/
lemma sync_creates_zero (routes : List Route) (st : Store)
    (hmatch : ∀ o ∈ routes.filterMap routeToStorageOpp,
      syncCreateMatch st.opps o = true) :
    (Main.syncRoutesToStorage routes st).creates = 0 := by
  unfold Main.syncRoutesToStorage
  dsimp only
  rw [syncCreateLoop_none _ _ _ hmatch]

/-- A second sync pass with the identical route set issues no create calls,
provided the projections carry pairwise-distinct triples and finite profit
percentages (as the main detector produces). -/
lemma sync_second_pass_creates (routes : List Route) (st : Store)
    (hWF : StoreWF st)
    (hdist : (routes.filterMap routeToStorageOpp).Pairwise (fun a b => ¬ tripleEq a b))
    (hfin : ∀ o ∈ routes.filterMap routeToStorageOpp, ∃ q, o.profitPercentage = JsNum.num q) :
    (Main.syncRoutesToStorage routes (Main.syncRoutesToStorage routes st).store).creates = 0 := by
  have hmatch : ∀ o ∈ routes.filterMap routeToStorageOpp,
      syncCreateMatch (Main.syncRoutesToStorage routes st).store.opps o = true := by
    intro o ho
    obtain ⟨x, hx, htr, hp⟩ := sync_provides_match routes st hWF hdist o ho
    obtain ⟨q, hq⟩ := hfin o ho
    unfold syncCreateMatch
    refine List.any_eq_true.mpr ⟨x, hx, ?_⟩
    rw [Bool.and_eq_true]
    refine ⟨htr, ?_⟩
    rw [hp, hq]
    simp [JsNum.sub, JsNum.jabs, JsNum.jlt, JsNum.jgt]
    norm_num
  exact sync_creates_zero routes _ hmatch

/-- A persisted opportunity whose triple no longer appears among the routes is
marked inactive by the sync (its id survives with `isActive := false`). -/
lemma sync_deactivates (routes : List Route) (st : Store)
    (hnd : (st.opps.map StoredOpp.id).Nodup)
    (e : StoredOpp) (he : e ∈ st.opps)
    (hgone : ∀ o ∈ routes.filterMap routeToStorageOpp, tripleMatches e o = false) :
    ∃ x ∈ (Main.syncRoutesToStorage routes st).store.opps,
      x.id = e.id ∧ x.isActive = false := by
  unfold Main.syncRoutesToStorage
  dsimp only
  obtain ⟨tail, ht, _⟩ :=
    syncCreateLoop_appends st.opps (routes.filterMap routeToStorageOpp) (st, 0)
  have he' : e ∈ (syncCreateLoop st.opps (routes.filterMap routeToStorageOpp) (st, 0)).1.opps := by
    rw [ht]; exact List.mem_append_left tail he
  have hfind : (routes.filterMap routeToStorageOpp).find? (fun o => tripleMatches e o) = none :=
    List.find?_eq_none.mpr (fun o ho => by simp [hgone o ho])
  have hpatched := syncUpdateLoop_patched (routes.filterMap routeToStorageOpp) st.opps
    ((syncCreateLoop st.opps (routes.filterMap routeToStorageOpp) (st, 0)).1, 0) e he he' hnd
  rw [hfind] at hpatched
  exact ⟨syncDeactivate e, hpatched, rfl, rfl⟩

end Main

/-- Every adapter call the main step loop makes uses the planned amount of
its route step (never an amount from an earlier leg's result). -/
lemma main_runSteps_planned (tr : String → String → ℚ → Side → TradeResult)
    (ex : List ExchangeInfo) (asset : String) :
    ∀ (steps : List RouteStep) (acc : List SummaryStep) (calls : List TradeCall)
      (c : TradeCall), c ∈ (Main.runSteps tr ex asset steps acc calls).2.1 →
      c ∈ calls ∨ ∃ st ∈ steps, c = ⟨st.exchange, asset, st.amount, st.action⟩ := by
  intro steps
  induction steps with
  | nil => intro acc calls c h; exact Or.inl h
  | cons step rest ih =>
      intro acc calls c h
      unfold Main.runSteps at h
      dsimp only at h
      split at h
      · exact Or.inl h
      · split at h
        · rcases ih _ _ c h with h' | ⟨st, hst, rfl⟩
          · rcases List.mem_append.mp h' with h'' | h''
            · exact Or.inl h''
            · exact Or.inr ⟨step, List.mem_cons_self step rest,
                (List.mem_singleton.mp h'') ▸ rfl⟩
          · exact Or.inr ⟨st, List.mem_cons_of_mem step hst, rfl⟩
        · rcases List.mem_append.mp h with h'' | h''
          · exact Or.inl h''
          · exact Or.inr ⟨step, List.mem_cons_self step rest,
              (List.mem_singleton.mp h'') ▸ rfl⟩

/-!  Concrete fixtures used by the counterexamples and witnesses. -/

/-- Two CEX exchanges. -/
def exchA : ExchangeInfo := ⟨"A", .CEX⟩

/-- Second exchange of the fixtures. -/
def exchB : ExchangeInfo := ⟨"B", .CEX⟩

/-- An adapter that always fills the requested amount at price 100, no fee. -/
def tradeOk : String → String → ℚ → Side → TradeResult :=
  fun _ asset amount _ => ⟨true, "tx", asset, amount, 100, 0, none⟩

/-- An adapter whose buy leg partially fills (reports amount 1/2) and whose
sell leg fills whatever was requested. -/
def tradePartialBuy : String → String → ℚ → Side → TradeResult :=
  fun _ asset amount side =>
    match side with
    | .buy => ⟨true, "txb", asset, 1 / 2, 100, 0, none⟩
    | .sell => ⟨true, "txs", asset, amount, 101, 0, none⟩

/-- An adapter whose buy leg succeeds and whose sell leg fails. -/
def tradeSellFails : String → String → ℚ → Side → TradeResult :=
  fun _ asset amount side =>
    match side with
    | .buy => ⟨true, "txb", asset, amount, 100, 0, none⟩
    | .sell => ⟨false, "", asset, 0, 0, 0, some "sell failed"⟩

/-- The single stored opportunity of the fixtures: an active (ETH, A, B)
opportunity under id 1. -/
def oppStored : StoredOpp := ⟨1, "ETH", "A", "B", 100, 101, .num 1, 1, true, none, none⟩

/-- A store holding just `oppStored`. -/
def storeOneOpp : Store := ⟨2, [oppStored]⟩

/-- A cache where both legs' prices still show a profitable spread. -/
def cacheGood : PriceCache := [("A", [("ETH", 100)]), ("B", [("ETH", 101)])]

/-- A cache where the spread has collapsed (sell far below buy). -/
def cacheCollapsed : PriceCache := [("A", [("ETH", 100)]), ("B", [("ETH", 50)])]

/-- The route the main detector produces from `cacheGood`. -/
def routeGood : Route :=
  ⟨"ETH", [⟨"A", .CEX, .buy, 100, 1, 1/10⟩, ⟨"B", .CEX, .sell, 101, 1, 101/1000⟩],
   799/1000, .num (799/1000), .num 50, .num (9/10)⟩

/-- The route the main detector produces from a zero buy price. -/
def routeZeroBuy : Route :=
  ⟨"ETH", [⟨"A", .CEX, .buy, 0, 1, 0⟩, ⟨"B", .CEX, .sell, 100, 1, 1/10⟩],
   999/10, .inf, .num 70, .num (3/5)⟩

/-- Route fixture matching the (ETH, A, B) triple with profit percentage 0.7. -/
def routeAB : Route :=
  ⟨"ETH", [⟨"A", .CEX, .buy, 100, 1, 1/10⟩, ⟨"B", .CEX, .sell, 101, 1, 101/1000⟩],
   7/10, .num (7/10), .num 50, .num (9/10)⟩

/-- The storage projection of `routeAB`. -/
def oppAB : OppData := ⟨"ETH", "A", "B", 100, 101, .num (7/10), 7/10, true⟩

/-- Route fixture with the same triple as `storeOneOpp`'s entry but profit
percentage 2 (more than 0.1 away from the stored 1). -/
def routeAB2 : Route :=
  ⟨"ETH", [⟨"A", .CEX, .buy, 100, 1, 1/10⟩, ⟨"B", .CEX, .sell, 103, 1, 103/1000⟩],
   2, .num 2, .num 50, .num (9/10)⟩

/-- C1 (counterexample): in the main variant, a buy leg that reports a partial
fill of 1/2 is followed by a sell leg executed for the originally planned
amount 1 — the sell does not chain on the buy leg's reported fill. -/
theorem main_sell_ignores_buy_fill :
    (Main.executeTrade 3 [exchA, exchB] [] tradePartialBuy 0 1
        ⟨0, [], storeOneOpp, []⟩).calls
        = [⟨"A", "ETH", 1, .buy⟩, ⟨"B", "ETH", 1, .sell⟩]
    ∧ (tradePartialBuy "A" "ETH" 1 .buy).success = true
    ∧ (tradePartialBuy "A" "ETH" 1 .buy).amount = 1 / 2
    ∧ (1 : ℚ) ≠ 1 / 2 := by
  refine ⟨by with_unfolding_all rfl, by with_unfolding_all rfl, by with_unfolding_all rfl, ?_⟩
  norm_num

/-- C1 (amended): the Track1 variant chains the sell leg on the buy result —
whenever both legs execute, the first adapter call is a buy for the fixed
amount 1 and the second a sell for exactly the amount the buy leg's trade
result reported; the main variant instead executes every leg for its route
step's planned amount. -/
theorem executeTrade_sell_leg_chaining :
    (∀ (θ : ℚ) (m : ℕ) (ex : List ExchangeInfo)
        (tr : String → String → ℚ → Side → TradeResult) (el : ℚ) (oid : ℕ)
        (s : Track1.ServiceState) (c0 c1 : TradeCall),
        (Track1.executeTrade θ m ex tr el oid s).calls = [c0, c1] →
        c0.side = .buy ∧ c0.amount = 1 ∧ c1.side = .sell
          ∧ c1.amount = (tr c0.exchange c0.asset c0.amount c0.side).amount)
    ∧ (∀ (tr : String → String → ℚ → Side → TradeResult) (ex : List ExchangeInfo)
        (asset : String) (steps : List RouteStep) (c : TradeCall),
        c ∈ (Main.runSteps tr ex asset steps [] []).2.1 →
        ∃ st ∈ steps, c = ⟨st.exchange, asset, st.amount, st.action⟩) := by
  refine ⟨track1_executeTrade_chains, ?_⟩
  intro tr ex asset steps c h
  rcases main_runSteps_planned tr ex asset steps [] [] c h with h' | h'
  · exact absurd h' (List.not_mem_nil c)
  · exact h'

/-- C1 (witness): the chaining theorem at a concrete Track1 run whose buy leg
reports a fill of 1/2. -/
theorem executeTrade_sell_leg_chaining_witness :
    (⟨"A", "ETH", 1, .buy⟩ : TradeCall).side = .buy
    ∧ (⟨"A", "ETH", 1, .buy⟩ : TradeCall).amount = 1
    ∧ (⟨"B", "ETH", 1/2, .sell⟩ : TradeCall).side = .sell
    ∧ (⟨"B", "ETH", 1/2, .sell⟩ : TradeCall).amount
        = (tradePartialBuy "A" "ETH" 1 .buy).amount :=
  executeTrade_sell_leg_chaining.1 (1/4) 3 [exchA, exchB] tradePartialBuy 0 1
    ⟨0, [], storeOneOpp, cacheGood⟩ ⟨"A", "ETH", 1, .buy⟩ ⟨"B", "ETH", 1/2, .sell⟩
    (by with_unfolding_all rfl)

/-- C2 (counterexample): the main variant executes both legs successfully even
though the currently cached prices (buy 100, sell 50) give a recomputed net
profit percentage far below the 0.25 threshold — no revalidation happens and
the call does not fail with NoLongerProfitable. -/
theorem main_no_revalidation :
    ((50 - 100 : ℚ) - (100 * (1/1000) + 50 * (1/1000))) / 100 * 100 < 1/4
    ∧ (Main.executeTrade 3 [exchA, exchB] [] tradeOk 0 1
        ⟨0, [], storeOneOpp, cacheCollapsed⟩).result.isOk = true
    ∧ (Main.executeTrade 3 [exchA, exchB] [] tradeOk 0 1
        ⟨0, [], storeOneOpp, cacheCollapsed⟩).calls.length = 2 := by
  refine ⟨by norm_num, ?_, ?_⟩ <;> with_unfolding_all rfl

/-- C2 (amended): only the Track1 variant revalidates before committing
capital — it re-reads both cached prices and fails with `NoLongerProfitable`
(executing no leg, changing nothing) when the recomputed gross spread
percentage (fees are not included in this check) is below the threshold; the
main variant never reads the price cache at all, so its outcome, adapter
calls, store effect and recorded history are invariant under any change of
the cached prices. -/
theorem executeTrade_revalidation_profile :
    (∀ (m : ℕ) (ex : List ExchangeInfo) (rts : List Route)
        (tr : String → String → ℚ → Side → TradeResult) (el : ℚ) (oid : ℕ)
        (s : Main.MainState) (pc : PriceCache),
        (Main.executeTrade m ex rts tr el oid { s with priceCache := pc }).result
            = (Main.executeTrade m ex rts tr el oid s).result
          ∧ (Main.executeTrade m ex rts tr el oid { s with priceCache := pc }).calls
            = (Main.executeTrade m ex rts tr el oid s).calls
          ∧ (Main.executeTrade m ex rts tr el oid { s with priceCache := pc }).state.store
            = (Main.executeTrade m ex rts tr el oid s).state.store
          ∧ (Main.executeTrade m ex rts tr el oid { s with priceCache := pc }).state.executionHistory
            = (Main.executeTrade m ex rts tr el oid s).state.executionHistory)
    ∧ (∀ (θ : ℚ) (m : ℕ) (ex : List ExchangeInfo)
        (tr : String → String → ℚ → Side → TradeResult) (el : ℚ) (oid : ℕ)
        (s : Track1.ServiceState) (opportunity : StoredOpp) (buyP sellP : ℚ),
        s.store.getArbitrageOpportunity oid = some opportunity →
        Track1.getCurrentPrice s.priceCache opportunity.asset opportunity.buyExchange = some buyP →
        Track1.getCurrentPrice s.priceCache opportunity.asset opportunity.sellExchange = some sellP →
        buyP ≠ 0 → sellP ≠ 0 → ((sellP - buyP) / buyP) * 100 < θ →
        Track1.executeTrade θ m ex tr el oid s
          = ⟨.error (.noLongerProfitable (((sellP - buyP) / buyP) * 100)), s, []⟩) :=
  ⟨main_executeTrade_ignores_cache,
   fun θ m ex tr el oid s opportunity buyP sellP hopp hbuy hsell hb0 hs0 hlow =>
     track1_executeTrade_revalidates θ m ex tr el oid s opportunity buyP sellP
       hopp hbuy hsell hb0 hs0 hlow⟩

/-- C2 (witness): the revalidation theorem at a concrete Track1 run over the
collapsed cache, where the recomputed spread is -50%. -/
theorem executeTrade_revalidation_profile_witness :
    Track1.executeTrade (1/4) 3 [exchA, exchB] tradeOk 0 1
        ⟨0, [], storeOneOpp, cacheCollapsed⟩
      = ⟨.error (.noLongerProfitable ((((50 : ℚ) - 100) / 100) * 100)),
         ⟨0, [], storeOneOpp, cacheCollapsed⟩, []⟩ :=
  executeTrade_revalidation_profile.2 (1/4) 3 [exchA, exchB] tradeOk 0 1
    ⟨0, [], storeOneOpp, cacheCollapsed⟩ oppStored 100 50
    (by with_unfolding_all rfl) (by with_unfolding_all rfl) (by with_unfolding_all rfl)
    (by norm_num) (by norm_num) (by norm_num)

/-- C3: the concurrency limiter is sound.  In every interleaving of calls
(modelled by the limiter transition system, whose gate mirrors the atomic
check-then-increment and whose single release mirrors the `finally`
decrement), the number of executions simultaneously holding a slot equals the
counter and never exceeds the bound; a main-variant call arriving at a full
limiter fails fast with `Throttled`, touching nothing; both variants are
counter-neutral on every path (each acquisition is released exactly once, so
the counter returns to its pre-call value); and a Track1 call returns
`Throttled` only when the bound was reached, also touching nothing. -/
theorem executeTrade_concurrency :
    (∀ (maxConc n : ℕ) (script : Fin n → ℕ) (t : LimState n),
        LimReachable maxConc (limInit script) t →
        t.active ≤ maxConc ∧ t.active = countHolding t.calls)
    ∧ (∀ (m : ℕ) (ex : List ExchangeInfo) (rts : List Route)
        (tr : String → String → ℚ → Side → TradeResult) (el : ℚ) (oid : ℕ)
        (s : Main.MainState), m ≤ s.activeExecutions →
        Main.executeTrade m ex rts tr el oid s = ⟨.error .throttled, s, []⟩)
    ∧ (∀ (m : ℕ) (ex : List ExchangeInfo) (rts : List Route)
        (tr : String → String → ℚ → Side → TradeResult) (el : ℚ) (oid : ℕ)
        (s : Main.MainState),
        (Main.executeTrade m ex rts tr el oid s).state.activeExecutions = s.activeExecutions)
    ∧ (∀ (θ : ℚ) (m : ℕ) (ex : List ExchangeInfo)
        (tr : String → String → ℚ → Side → TradeResult) (el : ℚ) (oid : ℕ)
        (s : Track1.ServiceState),
        (Track1.executeTrade θ m ex tr el oid s).state.activeExecutions = s.activeExecutions)
    ∧ (∀ (θ : ℚ) (m : ℕ) (ex : List ExchangeInfo)
        (tr : String → String → ℚ → Side → TradeResult) (el : ℚ) (oid : ℕ)
        (s : Track1.ServiceState),
        (Track1.executeTrade θ m ex tr el oid s).result = .error .throttled →
        m ≤ s.activeExecutions ∧ (Track1.executeTrade θ m ex tr el oid s).state = s) :=
  ⟨fun _ _ script _ h => ⟨(limReachable_inv script h).2, (limReachable_inv script h).1⟩,
   main_executeTrade_throttled, main_executeTrade_active,
   track1_executeTrade_active, track1_executeTrade_throttled⟩

/-- C3 (witness): the concurrency theorem at concrete inputs — the initial
state of a two-call population, a full main-variant limiter (counter 3 of 3),
counter-neutral runs of both variants, and a Track1 call throttled at the
gate. -/
theorem executeTrade_concurrency_witness :
    ((limInit (fun _ : Fin 2 => 1)).active ≤ 3
      ∧ (limInit (fun _ : Fin 2 => 1)).active = countHolding (limInit (fun _ : Fin 2 => 1)).calls)
    ∧ Main.executeTrade 3 [] [] tradeOk 0 1 ⟨3, [], ⟨1, []⟩, []⟩
        = ⟨.error .throttled, ⟨3, [], ⟨1, []⟩, []⟩, []⟩
    ∧ (Main.executeTrade 3 [] [] tradeOk 0 5 ⟨0, [], ⟨1, []⟩, []⟩).state.activeExecutions = 0
    ∧ (Track1.executeTrade 1 3 [] tradeOk 0 5 ⟨0, [], ⟨1, []⟩, []⟩).state.activeExecutions = 0
    ∧ (3 ≤ (3 : ℕ)
      ∧ (Track1.executeTrade (1/4) 3 [exchA, exchB] tradeOk 0 1
          ⟨3, [], storeOneOpp, cacheGood⟩).state = ⟨3, [], storeOneOpp, cacheGood⟩) :=
  ⟨executeTrade_concurrency.1 3 2 (fun _ => 1) _ Relation.ReflTransGen.refl,
   executeTrade_concurrency.2.1 3 [] [] tradeOk 0 1 ⟨3, [], ⟨1, []⟩, []⟩ (le_refl 3),
   executeTrade_concurrency.2.2.1 3 [] [] tradeOk 0 5 ⟨0, [], ⟨1, []⟩, []⟩,
   executeTrade_concurrency.2.2.2.1 1 3 [] tradeOk 0 5 ⟨0, [], ⟨1, []⟩, []⟩,
   executeTrade_concurrency.2.2.2.2 (1/4) 3 [exchA, exchB] tradeOk 0 1
     ⟨3, [], storeOneOpp, cacheGood⟩ (by with_unfolding_all rfl)⟩

/-- C4 (counterexample): a call on a missing opportunity id fails with
`NotFound` and appends no `ExecutionSummary` at all — early aborts are not
recorded in the execution history. -/
theorem main_notFound_records_nothing :
    (Main.executeTrade 3 [] [] tradeOk 0 7 ⟨0, [], ⟨1, []⟩, []⟩).result
        = .error (.notFound 7)
    ∧ (Main.executeTrade 3 [] [] tradeOk 0 7 ⟨0, [], ⟨1, []⟩, []⟩).state.executionHistory
        = [] := by
  refine ⟨?_, ?_⟩ <;> with_unfolding_all rfl

/-- C4 (amended): a summary is appended exactly by the attempts that reach
the leg-execution phase.  In the main variant the history grows by one
exactly when the outcome settled or failed in a leg (missing exchange or
failed trade), and by nothing on the `Throttled`/`NotFound`/`Stale` aborts;
in the Track1 variant it grows by one exactly when the call returns a summary
(which requires the buy leg to succeed), and by nothing on any thrown error —
including a buy-leg failure. -/
theorem executeTrade_summary_recording :
    (∀ (m : ℕ) (ex : List ExchangeInfo) (rts : List Route)
        (tr : String → String → ℚ → Side → TradeResult) (el : ℚ) (oid : ℕ)
        (s : Main.MainState),
        (Main.executeTrade m ex rts tr el oid s).state.executionHistory.length
          = s.executionHistory.length
            + (if mainRecorded (Main.executeTrade m ex rts tr el oid s).result then 1 else 0))
    ∧ (∀ (θ : ℚ) (m : ℕ) (ex : List ExchangeInfo)
        (tr : String → String → ℚ → Side → TradeResult) (el : ℚ) (oid : ℕ)
        (s : Track1.ServiceState),
        (Track1.executeTrade θ m ex tr el oid s).state.executionHistory.length
          = s.executionHistory.length
            + (if (Track1.executeTrade θ m ex tr el oid s).result.isOk then 1 else 0)) :=
  ⟨main_executeTrade_history, track1_executeTrade_history⟩

/-- C5 (counterexample): the Track1 detector keeps a route whose profit after
both legs' fees is negative (buy 100, sell 100.3: spread 0.3 gross, -0.1006
after the flat 0.2% fees) because it thresholds the gross percentage — the
route's after-fee percentage is below the 0.25 threshold. -/
theorem track1_detect_below_threshold_route :
    ((Track1.detectArbitrageOpportunities (1/4) ["ETH"] [exchA, exchB]
        [("A", [("ETH", 100)]), ("B", [("ETH", 1003/10)])] [] ⟨1, []⟩).1.map
      (fun r => ((r.steps.get? 0).map RouteStep.expectedPrice, r.estimatedProfitAmount)))
      = [(some 100, -503/5000)]
    ∧ ((-503/5000 : ℚ) / 100) * 100 < 1/4 := by
  refine ⟨by with_unfolding_all rfl, by norm_num⟩

/-- C5 (amended): every route produced by the main detector passes the
JavaScript comparison `netProfitPercentage >= minProfitThreshold`, where the
stored percentage is the after-fee profit as a percentage of the buy price
(the Track1 detector instead thresholds the gross percentage, see the
counterexample). -/
theorem main_detect_meets_threshold :
    ∀ (θ : ℚ) (assets : List String) (exchanges : List ExchangeInfo)
      (cache : PriceCache) (old : List Route) (r : Route),
      r ∈ Main.detectArbitrageOpportunities θ assets exchanges cache old →
      r.estimatedProfitPercentage.jge (.num θ) = true := by
  intro θ assets exchanges cache old r h
  rcases detect_cases θ assets exchanges cache old r h with ⟨_, hj⟩ | ⟨hj, _⟩ <;> exact hj

/-- C5 (witness): the threshold theorem at the concrete cache (A: 100,
B: 101), whose single detected route carries percentage 0.799. -/
theorem main_detect_meets_threshold_witness :
    routeGood.estimatedProfitPercentage.jge (.num (1/4)) = true := by
  have h : Main.detectArbitrageOpportunities (1/4) ["ETH"] [exchA, exchB] cacheGood []
      = [routeGood] := by with_unfolding_all rfl
  exact main_detect_meets_threshold (1/4) ["ETH"] [exchA, exchB] cacheGood [] routeGood
    (by rw [h]; exact List.mem_singleton.mpr rfl)

/-- C6 (counterexample): store-sync is not idempotent as claimed — starting
from an empty store, the first pass over one route issues one create and no
update, and the second pass with the identical route set issues one further
update call (it rewrites every persisted opportunity on every pass). -/
theorem sync_second_pass_writes :
    ((Main.syncRoutesToStorage [routeAB] ⟨1, []⟩).creates,
     (Main.syncRoutesToStorage [routeAB] ⟨1, []⟩).updates) = (1, 0)
    ∧ ((Main.syncRoutesToStorage [routeAB]
          (Main.syncRoutesToStorage [routeAB] ⟨1, []⟩).store).creates,
       (Main.syncRoutesToStorage [routeAB]
          (Main.syncRoutesToStorage [routeAB] ⟨1, []⟩).store).updates) = (0, 1)
    ∧ (1 : ℕ) ≠ 0 := by
  refine ⟨by with_unfolding_all rfl, by with_unfolding_all rfl, by norm_num⟩

/-- C6 (amended): the sync is create-idempotent but not update-idempotent:
every pass issues exactly one update call per already-persisted opportunity,
and a second pass with the identical route set issues no create calls when
the projections carry pairwise-distinct triples and finite profit percentages
(as the deduplicating main detector produces). -/
theorem sync_idempotence_profile :
    (∀ (routes : List Route) (st : Store),
        (Main.syncRoutesToStorage routes st).updates = st.opps.length)
    ∧ (∀ (routes : List Route) (st : Store), StoreWF st →
        (routes.filterMap Main.routeToStorageOpp).Pairwise (fun a b => ¬ tripleEq a b) →
        (∀ o ∈ routes.filterMap Main.routeToStorageOpp, ∃ q, o.profitPercentage = JsNum.num q) →
        (Main.syncRoutesToStorage routes
          (Main.syncRoutesToStorage routes st).store).creates = 0) :=
  ⟨Main.sync_updates_eq, Main.sync_second_pass_creates⟩

/-- C6 (witness): the idempotence profile at the one-route, empty-store
fixture. -/
theorem sync_idempotence_profile_witness :
    (Main.syncRoutesToStorage [routeAB]
        (Main.syncRoutesToStorage [routeAB] ⟨1, []⟩).store).creates = 0 := by
  have hfm : ([routeAB].filterMap Main.routeToStorageOpp) = [oppAB] := by
    with_unfolding_all rfl
  refine sync_idempotence_profile.2 [routeAB] ⟨1, []⟩ ⟨?_, ?_⟩ ?_ ?_
  · intro e he
    exact absurd he (List.not_mem_nil e)
  · exact List.nodup_nil
  · rw [hfm]
    exact List.pairwise_singleton _ _
  · intro o ho
    rw [hfm, List.mem_singleton] at ho
    exact ⟨7/10, by rw [ho]; rfl⟩

/-- C7 (counterexample): the sync does not maintain at-most-one active
opportunity per triple — when a route's profit percentage (2) differs from an
existing active opportunity's (1) by at least the 0.1 tolerance, the pass
creates a second opportunity for the same (ETH, A, B) triple and also
re-activates the existing one, leaving two active entries for the triple. -/
theorem sync_duplicate_active_triple :
    ((Main.syncRoutesToStorage [routeAB2] storeOneOpp).store.opps.filter
      (fun x => x.isActive && x.asset == "ETH" && x.buyExchange == "A"
        && x.sellExchange == "B")).length = 2 := by
  with_unfolding_all rfl

/-- C7 (amended): what the sync does guarantee is the deactivation half of
the claim — a persisted opportunity whose (asset, buyExchange, sellExchange)
triple no longer appears among the detector's routes is marked inactive
(its id survives the pass with `isActive := false`) — while uniqueness of the
active opportunity per triple does not hold (see the counterexample). -/
theorem sync_deactivates_vanished_triples :
    ∀ (routes : List Route) (st : Store),
      (st.opps.map StoredOpp.id).Nodup →
      ∀ e ∈ st.opps,
      (∀ o ∈ routes.filterMap Main.routeToStorageOpp, Main.tripleMatches e o = false) →
      ∃ x ∈ (Main.syncRoutesToStorage routes st).store.opps,
        x.id = e.id ∧ x.isActive = false := by
  intro routes st hnd e he hgone
  exact Main.sync_deactivates routes st hnd e he hgone

/-- C7 (witness): the deactivation theorem at a concrete store holding one
active opportunity and an empty route set. -/
theorem sync_deactivates_vanished_triples_witness :
    ∃ x ∈ (Main.syncRoutesToStorage [] storeOneOpp).store.opps,
      x.id = oppStored.id ∧ x.isActive = false := by
  refine sync_deactivates_vanished_triples [] storeOneOpp ?_ oppStored ?_ ?_
  · show ([oppStored].map StoredOpp.id).Nodup
    simp
  · show oppStored ∈ [oppStored]
    exact List.mem_singleton_self _
  · intro o ho
    exact absurd ho (by simp)

/-- C8 (counterexample): a zero buy price is not rejected — with exchange A
caching price 0 and B caching 100, the main detector produces a route buying
at price 0 whose profit percentage is the JavaScript `Infinity` (the division
guard claimed by the specification does not exist). -/
theorem main_detect_zero_price_route :
    ((Main.detectArbitrageOpportunities (1/4) ["ETH"] [exchA, exchB]
        [("A", [("ETH", 0)]), ("B", [("ETH", 100)])] []).map
      (fun r => ((r.steps.get? 0).map RouteStep.expectedPrice, r.estimatedProfitPercentage)))
      = [(some 0, JsNum.inf)] := by
  with_unfolding_all rfl

/-- C8 (amended): the detector has no zero-price guard; what holds instead is
that every freshly detected route either carries a finite percentage at or
above the threshold, or carries the JavaScript `Infinity` — and the latter
happens only when the route's buy price is exactly zero (pairs whose
percentage evaluates to `NaN` or `-Infinity` are rejected by the threshold
comparison). -/
theorem main_detect_zero_price_profile :
    ∀ (θ : ℚ) (assets : List String) (exchanges : List ExchangeInfo)
      (cache : PriceCache) (r : Route),
      r ∈ Main.detectArbitrageOpportunities θ assets exchanges cache [] →
      (∃ q, r.estimatedProfitPercentage = .num q ∧ θ ≤ q)
      ∨ (r.estimatedProfitPercentage = .inf
          ∧ (r.steps.get? 0).map RouteStep.expectedPrice = some 0) := by
  intro θ assets exchanges cache r h
  rcases detect_cases θ assets exchanges cache [] r h with ⟨habs, _⟩ | ⟨hjge, bp, net, hsteps, hpct⟩
  · exact absurd habs (List.not_mem_nil r)
  · cases hval : r.estimatedProfitPercentage with
    | num q =>
        rw [hval] at hjge
        exact Or.inl ⟨q, rfl, by simpa [JsNum.jge] using hjge⟩
    | inf =>
        refine Or.inr ⟨rfl, ?_⟩
        have hz : jsPct net bp = .inf := by rw [← hpct, hval]
        have hbp := (jsPct_inf net bp hz).1
        rw [hbp] at hsteps
        exact hsteps
    | negInf => rw [hval] at hjge; simp [JsNum.jge] at hjge
    | nan => rw [hval] at hjge; simp [JsNum.jge] at hjge

/-- C8 (witness): the characterization at the zero-price cache, where the
detected route hits the `Infinity` disjunct with buy price zero. -/
theorem main_detect_zero_price_profile_witness :
    (∃ q, routeZeroBuy.estimatedProfitPercentage = .num q ∧ (1/4 : ℚ) ≤ q)
    ∨ (routeZeroBuy.estimatedProfitPercentage = .inf
        ∧ (routeZeroBuy.steps.get? 0).map RouteStep.expectedPrice = some 0) := by
  have h : Main.detectArbitrageOpportunities (1/4) ["ETH"] [exchA, exchB]
      [("A", [("ETH", 0)]), ("B", [("ETH", 100)])] [] = [routeZeroBuy] := by
    with_unfolding_all rfl
  exact main_detect_zero_price_profile (1/4) ["ETH"] [exchA, exchB]
    [("A", [("ETH", 0)]), ("B", [("ETH", 100)])] routeZeroBuy
    (by rw [h]; exact List.mem_singleton.mpr rfl)

/-- C9: `getPerformanceMetrics` on an empty execution history returns zeroed
metrics in both variants — zero executions, zero success rate, zero total
profit, zero average execution time, an empty per-asset breakdown (and an
empty recent-executions window), with every division guarded so no division
by zero occurs (the main variant's expectation-accuracy field defaults to
100, its guarded difference average being 0). -/
theorem getPerformanceMetrics_empty :
    Main.getPerformanceMetrics [] = ⟨0, 0, 0, 0, 0, [], .num 100, []⟩
    ∧ ∀ (exchanges : List ExchangeInfo) (assets : List String) (routes : List Route),
        Track1.getPerformanceMetrics [] exchanges assets routes
          = ⟨0, 0, 0, 0, 0, 0, 0, [], exchanges.length, assets, routes.length⟩ := by
  constructor
  · with_unfolding_all rfl
  · intro exchanges assets routes
    with_unfolding_all rfl

/-- C10 (counterexample): in the Track1 variant, an attempt whose buy leg
succeeds but whose sell leg fails still marks the opportunity inactive — the
summary records `success = false` while the stored opportunity's active flag
has been flipped to `false`. -/
theorem track1_sell_failure_deactivates :
    ((Track1.executeTrade (1/4) 3 [exchA, exchB] tradeSellFails 0 1
        ⟨0, [], storeOneOpp, cacheGood⟩).state.store.opps.map
      (fun o => (o.id, o.isActive))) = [(1, false)]
    ∧ (match (Track1.executeTrade (1/4) 3 [exchA, exchB] tradeSellFails 0 1
        ⟨0, [], storeOneOpp, cacheGood⟩).result with
        | .ok s => s.success
        | .error _ => true) = false := by
  refine ⟨?_, ?_⟩ <;> with_unfolding_all rfl

/-- C10 (amended): every attempt that ends in a thrown error — `Throttled`,
`NotFound`, `Stale`, a missing price or exchange, or a failed buy leg, and in
the main variant any failed leg — leaves the opportunity store (and hence the
active flag) unchanged; but a Track1 attempt whose buy leg succeeded updates
the opportunity to inactive even when its sell leg fails (see the
counterexample), so only the main variant restricts the flag flip to fully
successful executions. -/
theorem executeTrade_error_keeps_store :
    (∀ (m : ℕ) (ex : List ExchangeInfo) (rts : List Route)
        (tr : String → String → ℚ → Side → TradeResult) (el : ℚ) (oid : ℕ)
        (s : Main.MainState) (e : ExecError),
        (Main.executeTrade m ex rts tr el oid s).result = .error e →
        (Main.executeTrade m ex rts tr el oid s).state.store = s.store)
    ∧ (∀ (θ : ℚ) (m : ℕ) (ex : List ExchangeInfo)
        (tr : String → String → ℚ → Side → TradeResult) (el : ℚ) (oid : ℕ)
        (s : Track1.ServiceState) (e : ExecError),
        (Track1.executeTrade θ m ex tr el oid s).result = .error e →
        (Track1.executeTrade θ m ex tr el oid s).state.store = s.store) :=
  ⟨main_executeTrade_store_on_error, track1_executeTrade_store_on_error⟩

/-- C10 (witness): the store-frame theorem at a concrete failed attempt (a
Track1 buy-leg failure against the good cache). -/
theorem executeTrade_error_keeps_store_witness :
    (Track1.executeTrade (1/4) 3 [exchA, exchB]
        (fun _ asset _ _ => ⟨false, "", asset, 0, 0, 0, some "buy failed"⟩) 0 1
        ⟨0, [], storeOneOpp, cacheGood⟩).state.store = storeOneOpp :=
  executeTrade_error_keeps_store.2 (1/4) 3 [exchA, exchB]
    (fun _ asset _ _ => ⟨false, "", asset, 0, 0, 0, some "buy failed"⟩) 0 1
    ⟨0, [], storeOneOpp, cacheGood⟩ (.legFailed "A" (some "buy failed"))
    (by with_unfolding_all rfl)
